import Mathlib

/-!
# video2pic: the frame dump of `main.cpp`

A shallow embedding of `src/video2pic/main.cpp`: `SaveFrame`, which writes one
converted raster as a binary PPM file, and `main`, which opens a container,
selects the first video stream, opens its decoder and runs the
read / decode / convert / save loop over the packets of the container.

The calls into libavformat, libavcodec, libswscale and stdio are not part of
the repository.  Their outcomes are the fields of `World`; `main` is a function
of a `World` and returns its exit code together with the list of the calls it
made, in program order.
-/

namespace Video2pic

/-! ## Text produced by the `%d` conversion -/

/-- The character of a decimal digit `d < 10`. -/
def digitChar (d : Nat) : Char := Char.ofNat (48 + d)

/-- Decimal digits of `n`, most significant first; `fuel` bounds the number of
digits produced. -/
def decimalFuel : Nat → Nat → List Char
  | 0, _ => []
  | fuel + 1, n =>
    if n < 10 then [digitChar n] else decimalFuel fuel (n / 10) ++ [digitChar (n % 10)]

/-- Decimal digits of a natural number (`n + 1` is always enough fuel). -/
def decimal (n : Nat) : List Char := decimalFuel (n + 1) n

/-- The text `printf` produces for `%d`: a minus sign for a negative argument,
then the decimal digits of its magnitude. -/
def fmt_d (z : Int) : List Char :=
  if z < 0 then '-' :: decimal (-z).toNat else decimal z.toNat

/-- Bytes of a text (`fprintf` writes the characters as they are). -/
def asBytes (s : List Char) : List Nat := s.map Char.toNat

/-! ## Machine integers -/

/-- The value a 32-bit `int` holds after an arithmetic result `z`
(two's-complement wrap-around). -/
def wrap32 (z : Int) : Int := (z + 2147483648) % 4294967296 - 2147483648

/-- The `size_t` (64 bits) that `fwrite` receives for an `int` count. -/
def size_t_of_int (n : Int) : Nat := (n % 18446744073709551616).toNat

/-! ## SaveFrame -/

/-- The part of an `AVFrame` that `SaveFrame` reads: the bytes of plane 0,
addressed by their offset from `data[0]` (negative offsets lie before the
raster), and the stride `linesize[0]`. -/
structure AVFrame where
  /-- Byte found at `data[0] + off`. -/
  data0 : Int → Nat
  /-- Stride `linesize[0]` in bytes. -/
  linesize0 : Int

/-- What one call of `SaveFrame` did to the file system. -/
structure FileOp where
  /-- Name built in `szFilename`. -/
  szFilename : List Char
  /-- Whether `fopen` returned a stream (`pFile != NULL`). -/
  opened : Bool
  /-- All bytes passed to `fprintf` and `fwrite`, in order. -/
  written : List Nat
deriving DecidableEq, Repr

/-- Result of `sprintf(szFilename, "frame%d.ppm", iFrame)`. -/
def frameName (iFrame : Int) : List Char :=
  "frame".toList ++ fmt_d iFrame ++ ".ppm".toList

/-- Text of `fprintf(pFile, "P6\n%d %d\n255\n", width, height)`. -/
def ppmHeader (width height : Int) : List Char :=
  "P6\n".toList ++ fmt_d width ++ " ".toList ++ fmt_d height ++ "\n255\n".toList

/-- Bytes of `fwrite(ptr, 1, n, pFile)` where `ptr = data[0] + off` and the
`int` count `n` is converted to `size_t`. -/
def fwriteBytes (pFrame : AVFrame) (off : Int) (n : Int) : List Nat :=
  (List.range (size_t_of_int n)).map (fun (k : Nat) => pFrame.data0 (off + (k : Int)))

/-- The loop `for (y = ...; y < height; y++) fwrite(data[0] + y*linesize[0], 1, width*3, pFile)`
with `todo` iterations left.  The products `y*linesize[0]` and `width*3` are
products of two `int`s and are kept in 32 bits; `y` stays below `height`, so
`y++` does not leave the range of `int`. -/
def writeRows (pFrame : AVFrame) (width : Int) : Nat → Int → List Nat
  | 0, _ => []
  | todo + 1, y =>
    fwriteBytes pFrame (wrap32 (y * pFrame.linesize0)) (wrap32 (width * 3)) ++
      writeRows pFrame width todo (y + 1)

/-- `SaveFrame(pFrame, width, height, iFrame)`; `fopen name` tells whether the
file `name` can be opened for writing. -/
def SaveFrame (fopen : List Char → Bool) (pFrame : AVFrame) (width height iFrame : Int) :
    FileOp :=
  let szFilename := frameName iFrame
  if fopen szFilename = false then
    { szFilename := szFilename, opened := false, written := [] }
  else
    { szFilename := szFilename, opened := true,
      written := asBytes (ppmHeader width height) ++ writeRows pFrame width height.toNat 0 }

/-- Offsets, from `data[0]`, of the bytes a PPM body of `width` by `height`
pixels takes from a raster of stride `linesize`: row after row, the first
`width * 3` bytes of each row. -/
def sourceOffsets (linesize width height : Int) : List Int :=
  (List.range height.toNat).flatMap
    (fun (y : Nat) => (List.range (width * 3).toNat).map (fun (k : Nat) => (y : Int) * linesize + (k : Int)))

/-- Value of a string of decimal digits, most significant first. -/
def decimalValue (s : List Char) : Nat :=
  s.foldl (fun acc c => 10 * acc + (c.toNat - 48)) 0

/-- Reads back the text of a `%d` conversion. -/
def read_d : List Char → Int
  | [] => 0
  | c :: rest => if c = '-' then -(decimalValue rest : Int) else (decimalValue (c :: rest) : Int)

/-! ## The container, the decoder and the calls of `main` -/

/-- Value of `AVMEDIA_TYPE_VIDEO` in `enum AVMediaType` (libavutil); `main` only
compares `codec_type` with it. -/
def AVMEDIA_TYPE_VIDEO : Int := 0

/-- The fields of `pFormatCtx->streams[i]->codec` that `main` reads. -/
structure AVStream where
  /-- Media type `codec->codec_type`. -/
  codec_type : Int
  /-- Codec identifier `codec->codec_id`. -/
  codec_id : Int
deriving DecidableEq, Repr

/-- A packet delivered by `av_read_frame`: the stream it belongs to and its
compressed payload (an identifier stands for the bytes). -/
structure AVPacket where
  /-- Index of the stream the packet belongs to. -/
  stream_index : Int
  /-- Payload of the packet. -/
  payload : Nat
deriving DecidableEq, Repr

/-- What one call of `avcodec_decode_video2` hands back: its return value
(negative on a decode error), the flag stored through `&frameFinished`, and the
state of the decoder (`pCodecCtx` and `pFrame`) after the call. -/
structure Decoded (σ : Type) where
  /-- Return value of the call, which `main` discards. -/
  ret : Int
  /-- Flag stored through `&frameFinished`. -/
  frameFinished : Int
  /-- Decoder state after the call. -/
  state : σ

/-- The variables of `main` that hold something to be released. -/
inductive Handle
  | pFormatCtx
  | pCodecCtxOrig
  | pCodecCtx
  | pFrame
  | pFrameRGB
  | buffer
  | sws_ctx
deriving DecidableEq, Repr

/-- The calls `main` makes, with the arguments and results that matter. -/
inductive Call
  | printf (text : List Char)
  | fprintf_stderr (text : List Char)
  | av_register_all
  | avformat_open_input (ret : Int)
  | avformat_find_stream_info (ret : Int)
  | av_dump_format
  | avcodec_find_decoder (codec_id : Int) (found : Bool)
  | avcodec_alloc_context3
  | avcodec_copy_context (ret : Int)
  | avcodec_open2 (ret : Int)
  | av_frame_alloc (h : Handle) (ok : Bool)
  | avpicture_get_size
  | av_malloc
  | avpicture_fill
  | sws_getContext
  | av_read_frame (got : Option AVPacket)
  | avcodec_decode_video2 (packet : AVPacket) (ret : Int) (frameFinished : Int)
  | sws_scale
  | SaveFrame (width height iFrame : Int) (op : FileOp)
  | av_free_packet (packet : AVPacket)
  | av_free (h : Handle)
  | av_frame_free (h : Handle)
  | avcodec_close (h : Handle)
  | avformat_close_input
deriving DecidableEq, Repr

/-- Everything outside the program that a run of `main` depends on: the command
line, the outcomes of the library calls, the content of the container, the
decoder, the converter and the file system. -/
structure World (σ : Type) where
  /-- Number of command-line words. -/
  argc : Int
  /-- Return value of `avformat_open_input`. -/
  avformat_open_input : Int
  /-- Return value of `avformat_find_stream_info`. -/
  avformat_find_stream_info : Int
  /-- The table `pFormatCtx->streams`, of length `nb_streams`; libavformat keeps
  `nb_streams` far below 2147483648, so the index `i` of the scan is taken in
  `Int` as it stands. -/
  streams : List AVStream
  /-- Whether `avcodec_find_decoder` knows the codec (`pCodec != NULL`). -/
  avcodec_find_decoder : Int → Bool
  /-- Return value of `avcodec_copy_context`. -/
  avcodec_copy_context : Int
  /-- Return value of `avcodec_open2`. -/
  avcodec_open2 : Int
  /-- Whether the first `av_frame_alloc` returned a frame; `main` does not look. -/
  pFrame_ok : Bool
  /-- Whether the second `av_frame_alloc` returned a frame (`pFrameRGB != NULL`). -/
  pFrameRGB_ok : Bool
  /-- Field `pCodecCtx->width`, the width of the stream, the same at every save. -/
  width : Int
  /-- Field `pCodecCtx->height`, the height of the stream, the same at every save. -/
  height : Int
  /-- The packets `av_read_frame` delivers, in order, before it returns a
  negative value. -/
  packets : List AVPacket
  /-- Decoder state once `avcodec_open2` has succeeded. -/
  decoder : σ
  /-- The call `avcodec_decode_video2(pCodecCtx, pFrame, &frameFinished, &packet)`. -/
  avcodec_decode_video2 : σ → AVPacket → Decoded σ
  /-- The raster `pFrameRGB` after `sws_scale` has converted the decoded picture. -/
  sws_scale : σ → AVFrame
  /-- Whether `fopen(name, "wb")` returns a stream. -/
  fopen : List Char → Bool

/-- The scan `for (i = ...; i < nb_streams; i++) if (streams[i] is video) { videoStream = i; break; }`
over the streams from index `i` on; `-1` when the scan ends without a hit. -/
def findVideoStreamFrom : List AVStream → Int → Int
  | [], _ => -1
  | st :: rest, i =>
    if st.codec_type = AVMEDIA_TYPE_VIDEO then i else findVideoStreamFrom rest (i + 1)

/-- Value of `videoStream` after the scan of the stream table. -/
def findVideoStream (streams : List AVStream) : Int := findVideoStreamFrom streams 0

/-- Field `pFormatCtx->streams[videoStream]->codec->codec_id`. -/
def codecIdAt (streams : List AVStream) (videoStream : Int) : Int :=
  match streams[videoStream.toNat]? with
  | some st => st.codec_id
  | none => 0

/-- One pass through the body of the `while` loop, for a packet that
`av_read_frame` has just delivered.  The state is the decoder state and the
counter `i`, an `int` kept in its 32 bits: `++i` is `wrap32 (i + 1)`. -/
def iteration {σ : Type} (W : World σ) (videoStream : Int) (st : σ × Int) (packet : AVPacket) :
    (σ × Int) × List Call :=
  if packet.stream_index = videoStream then
    let r := W.avcodec_decode_video2 st.1 packet
    if r.frameFinished ≠ 0 then
      let i := wrap32 (st.2 + 1)
      if i ≤ 5 then
        ((r.state, i),
          [Call.av_read_frame (some packet),
           Call.avcodec_decode_video2 packet r.ret r.frameFinished,
           Call.sws_scale,
           Call.SaveFrame W.width W.height i
             (SaveFrame W.fopen (W.sws_scale r.state) W.width W.height i),
           Call.av_free_packet packet])
      else
        ((r.state, i),
          [Call.av_read_frame (some packet),
           Call.avcodec_decode_video2 packet r.ret r.frameFinished,
           Call.sws_scale,
           Call.av_free_packet packet])
    else
      ((r.state, st.2),
        [Call.av_read_frame (some packet),
         Call.avcodec_decode_video2 packet r.ret r.frameFinished,
         Call.av_free_packet packet])
  else
    (st, [Call.av_read_frame (some packet), Call.av_free_packet packet])

/-- The passes of the `while` loop for the packets `av_read_frame` delivers,
one after the other. -/
def passes {σ : Type} (W : World σ) (videoStream : Int) :
    List AVPacket → σ × Int → (σ × Int) × List Call
  | [], st => (st, [])
  | packet :: rest, st =>
    let a := iteration W videoStream st packet
    let b := passes W videoStream rest a.1
    (b.1, a.2 ++ b.2)

/-- The loop `while (av_read_frame(pFormatCtx, &packet) >= 0) ...`: a pass for
each packet, then the read that returns a negative value and ends the loop. -/
def readLoop {σ : Type} (W : World σ) (videoStream : Int) (packets : List AVPacket)
    (st : σ × Int) : (σ × Int) × List Call :=
  ((passes W videoStream packets st).1,
    (passes W videoStream packets st).2 ++ [Call.av_read_frame none])

/-- Result of a run: the value `main` returns and the calls it made. -/
structure Outcome where
  /-- Value returned by `main`. -/
  exit : Int
  /-- Calls made, in program order. -/
  calls : List Call
deriving DecidableEq, Repr

/-- Calls up to and including `avformat_open_input`. -/
def callsOpen {σ : Type} (W : World σ) : List Call :=
  [Call.av_register_all, Call.avformat_open_input W.avformat_open_input]

/-- Calls up to and including `av_dump_format`. -/
def callsProbe {σ : Type} (W : World σ) : List Call :=
  callsOpen W ++ [Call.avformat_find_stream_info W.avformat_find_stream_info, Call.av_dump_format]

/-- Calls up to and including `avcodec_find_decoder`. -/
def callsFind {σ : Type} (W : World σ) : List Call :=
  callsProbe W ++
    [Call.avcodec_find_decoder (codecIdAt W.streams (findVideoStream W.streams))
      (W.avcodec_find_decoder (codecIdAt W.streams (findVideoStream W.streams)))]

/-- Calls up to and including `avcodec_copy_context`. -/
def callsCopy {σ : Type} (W : World σ) : List Call :=
  callsFind W ++ [Call.avcodec_alloc_context3, Call.avcodec_copy_context W.avcodec_copy_context]

/-- Calls up to and including the second `av_frame_alloc`. -/
def callsFrames {σ : Type} (W : World σ) : List Call :=
  callsCopy W ++
    [Call.avcodec_open2 W.avcodec_open2, Call.av_frame_alloc Handle.pFrame W.pFrame_ok,
     Call.av_frame_alloc Handle.pFrameRGB W.pFrameRGB_ok]

/-- Calls from `avpicture_get_size` to `sws_getContext`. -/
def callsBuffer : List Call :=
  [Call.avpicture_get_size, Call.av_malloc, Call.avpicture_fill, Call.sws_getContext]

/-- Calls after the loop, from `av_free(buffer)` to `avformat_close_input`. -/
def callsTeardown : List Call :=
  [Call.av_free Handle.buffer, Call.av_frame_free Handle.pFrameRGB,
   Call.av_frame_free Handle.pFrame, Call.avcodec_close Handle.pCodecCtx,
   Call.avcodec_close Handle.pCodecCtxOrig, Call.avformat_close_input]

/-- The function `main`. -/
def main {σ : Type} (W : World σ) : Outcome :=
  if W.argc < 2 then
    ⟨-1, [Call.printf "Please provide a movie file\n".toList]⟩
  else if W.avformat_open_input ≠ 0 then
    ⟨-1, callsOpen W⟩
  else if W.avformat_find_stream_info < 0 then
    ⟨-1, callsOpen W ++ [Call.avformat_find_stream_info W.avformat_find_stream_info]⟩
  else if findVideoStream W.streams = -1 then
    ⟨-1, callsProbe W⟩
  else if W.avcodec_find_decoder (codecIdAt W.streams (findVideoStream W.streams)) = false then
    ⟨-1, callsFind W ++ [Call.fprintf_stderr "Unsupported codec!\n".toList]⟩
  else if W.avcodec_copy_context ≠ 0 then
    ⟨-1, callsCopy W ++ [Call.fprintf_stderr "Couldn't copy codec context".toList]⟩
  else if W.avcodec_open2 < 0 then
    ⟨-1, callsCopy W ++ [Call.avcodec_open2 W.avcodec_open2]⟩
  else if W.pFrameRGB_ok = false then
    ⟨-1, callsFrames W⟩
  else
    ⟨0, callsFrames W ++ callsBuffer ++
        (readLoop W (findVideoStream W.streams) W.packets (W.decoder, 0)).2 ++ callsTeardown⟩

/-! ## What a list of calls shows -/

/-- Packets handed to `avcodec_decode_video2`, in call order. -/
def decoderFeed (calls : List Call) : List AVPacket :=
  calls.filterMap fun c =>
    match c with
    | Call.avcodec_decode_video2 packet _ _ => some packet
    | _ => none

/-- Packets delivered by `av_read_frame`, in call order. -/
def packetsRead (calls : List Call) : List AVPacket :=
  calls.filterMap fun c =>
    match c with
    | Call.av_read_frame (some packet) => some packet
    | _ => none

/-- Packets released with `av_free_packet`, in call order. -/
def packetsFreed (calls : List Call) : List AVPacket :=
  calls.filterMap fun c =>
    match c with
    | Call.av_free_packet packet => some packet
    | _ => none

/-- Arguments and effect of one call of `SaveFrame`. -/
structure SaveCall where
  /-- Argument `width`. -/
  width : Int
  /-- Argument `height`. -/
  height : Int
  /-- Argument `iFrame`. -/
  iFrame : Int
  /-- What the call did to the file system. -/
  op : FileOp
deriving DecidableEq, Repr

/-- The calls of `SaveFrame` among `calls`, in call order. -/
def saveCalls (calls : List Call) : List SaveCall :=
  calls.filterMap fun c =>
    match c with
    | Call.SaveFrame width height iFrame op => some ⟨width, height, iFrame, op⟩
    | _ => none

/-- Sequence numbers `iFrame` of the calls of `SaveFrame`, in call order. -/
def saveIndices (calls : List Call) : List Int := (saveCalls calls).map SaveCall.iFrame

/-- Files written: name and content of every file a call of `SaveFrame`
opened, in call order. -/
def savedFiles (calls : List Call) : List (List Char × List Nat) :=
  (saveCalls calls).filterMap fun c =>
    if c.op.opened then some (c.op.szFilename, c.op.written) else none

/-- Texts the program prints on standard output or standard error. -/
def messages (calls : List Call) : List (List Char) :=
  calls.filterMap fun c =>
    match c with
    | Call.printf text => some text
    | Call.fprintf_stderr text => some text
    | _ => none

/-- Calls that give something back: `av_free`, `av_frame_free`,
`avcodec_close`, `avformat_close_input`. -/
def isRelease : Call → Bool
  | Call.av_free _ => true
  | Call.av_frame_free _ => true
  | Call.avcodec_close _ => true
  | Call.avformat_close_input => true
  | _ => false

/-- The three resources of the pipeline. -/
inductive Resource
  | container
  | decoder
  | rasterBuffer
deriving DecidableEq, Repr

/-- Acquisition or release of a resource. -/
inductive ResourceEvent
  | acquire (r : Resource)
  | release (r : Resource)
deriving DecidableEq, Repr

/-- The resource event of a call, if it is one: the container is acquired by a
successful `avformat_open_input` and released by `avformat_close_input`, the
decoder by a successful `avcodec_open2` and `avcodec_close(pCodecCtx)`, the
converted-raster buffer by `av_malloc` and `av_free(buffer)`. -/
def resourceEvent : Call → Option ResourceEvent
  | Call.avformat_open_input ret =>
    if ret = 0 then some (ResourceEvent.acquire Resource.container) else none
  | Call.avcodec_open2 ret =>
    if ret < 0 then none else some (ResourceEvent.acquire Resource.decoder)
  | Call.av_malloc => some (ResourceEvent.acquire Resource.rasterBuffer)
  | Call.av_free Handle.buffer => some (ResourceEvent.release Resource.rasterBuffer)
  | Call.avcodec_close Handle.pCodecCtx => some (ResourceEvent.release Resource.decoder)
  | Call.avformat_close_input => some (ResourceEvent.release Resource.container)
  | _ => none

/-- Resource events of a list of calls, in call order. -/
def resourceLog (calls : List Call) : List ResourceEvent := calls.filterMap resourceEvent

/-- Decoder states right after each call of `avcodec_decode_video2` that
completed a frame, when the packets of stream `videoStream` among `packets` are
fed to the decoder in order, starting in state `s`.  Its length is the number
of frames the decoder completes on that stream. -/
def completions {σ : Type} (W : World σ) (videoStream : Int) : List AVPacket → σ → List σ
  | [], _ => []
  | packet :: rest, s =>
    if packet.stream_index = videoStream then
      if (W.avcodec_decode_video2 s packet).frameFinished ≠ 0 then
        (W.avcodec_decode_video2 s packet).state ::
          completions W videoStream rest (W.avcodec_decode_video2 s packet).state
      else completions W videoStream rest (W.avcodec_decode_video2 s packet).state
    else completions W videoStream rest s

/-- The call `SaveFrame(pFrameRGB, pCodecCtx->width, pCodecCtx->height, k)` for
the frame the decoder completed on reaching state `s`. -/
def saveCallFor {σ : Type} (W : World σ) (k : Int) (s : σ) : SaveCall :=
  ⟨W.width, W.height, k, SaveFrame W.fopen (W.sws_scale s) W.width W.height k⟩

/-- The sequence numbers `c + 1, ..., 5` still to be given out when `c` frames
have been counted. -/
def sequenceNumbers (c : Nat) : List Int :=
  (List.range' (c + 1) (5 - c)).map (fun (k : Nat) => (k : Int))

/-- The sequence numbers passed to `SaveFrame` while `n` more frames are
completed, when the counter `i` holds `c`. -/
def indicesFrom : Int → Nat → List Int
  | _, 0 => []
  | c, n + 1 =>
    if wrap32 (c + 1) ≤ 5 then wrap32 (c + 1) :: indicesFrom (wrap32 (c + 1)) n
    else indicesFrom (wrap32 (c + 1)) n

/-- The calls made inside the loop: `av_read_frame`, `avcodec_decode_video2`,
`sws_scale`, `SaveFrame` and `av_free_packet`. -/
def isLoopCall : Call → Bool
  | Call.av_read_frame _ => true
  | Call.avcodec_decode_video2 _ _ _ => true
  | Call.sws_scale => true
  | Call.SaveFrame _ _ _ _ => true
  | Call.av_free_packet _ => true
  | _ => false

/-- The world `W` with another sequence of packets in the container. -/
def withPackets {σ : Type} (W : World σ) (packets : List AVPacket) : World σ :=
  { W with packets := packets }

/-- All steps before the loop succeed: an argument is given, the container
opens, its streams are probed, a video stream is found, its codec is known,
the codec context is copied, the decoder opens and `pFrameRGB` is allocated. -/
def setupSucceeds {σ : Type} (W : World σ) : Prop :=
  2 ≤ W.argc ∧ W.avformat_open_input = 0 ∧ 0 ≤ W.avformat_find_stream_info ∧
  findVideoStream W.streams ≠ -1 ∧
  W.avcodec_find_decoder (codecIdAt W.streams (findVideoStream W.streams)) = true ∧
  W.avcodec_copy_context = 0 ∧ 0 ≤ W.avcodec_open2 ∧ W.pFrameRGB_ok = true

/-! ## Sample inputs -/

/-- A raster of stride 8 whose byte at offset `off` is `off mod 256`. -/
def sampleFrame : AVFrame := ⟨fun off => off.toNat % 256, 8⟩

/-- A raster of stride 1073741824: the three bytes at offset -2147483648 are
30, 31, 32, the three bytes at offset 2147483648 are 20, 21, 22, and the bytes
in between are 0. -/
def wideFrame : AVFrame :=
  ⟨fun off =>
      if off < 0 then (off + 2147483678).toNat
      else if 2147483648 ≤ off then (off - 2147483628).toNat
      else 0,
    1073741824⟩

/-- A decoder for the samples; its state counts the packets it has taken in.
Payload 1 completes a frame, payload 2 is rejected with an error and leaves
the decoder as it was, payload 3 is reported as an error although a frame is
handed back, payload 4 is rejected with an error and counted, any other
payload is consumed without completing a frame. -/
def sampleDecode (s : Nat) (packet : AVPacket) : Decoded Nat :=
  if packet.payload = 1 then ⟨0, 1, s + 1⟩
  else if packet.payload = 2 then ⟨-1, 0, s⟩
  else if packet.payload = 3 then ⟨-1, 1, s + 1⟩
  else if packet.payload = 4 then ⟨-1, 0, s + 1⟩
  else ⟨0, 0, s + 1⟩

/-- A decoder that completes a frame on every second packet it has taken in,
rejected packets included: payload 4 is rejected with an error and counted,
any other packet completes a frame when the count is even. -/
def driftDecode (s : Nat) (packet : AVPacket) : Decoded Nat :=
  if packet.payload = 4 then ⟨-1, 0, s + 1⟩
  else if s % 2 = 0 then ⟨0, 1, s + 1⟩
  else ⟨0, 0, s + 1⟩

/-- A world in which every step before the loop succeeds and every file can be
opened: 2 by 1 pixels, stream 0 is audio, streams 1 and 2 are video. -/
def sampleWorld (packets : List AVPacket) : World Nat where
  argc := 2
  avformat_open_input := 0
  avformat_find_stream_info := 0
  streams := [⟨1, 86018⟩, ⟨0, 28⟩, ⟨0, 13⟩]
  avcodec_find_decoder := fun _ => true
  avcodec_copy_context := 0
  avcodec_open2 := 0
  pFrame_ok := true
  pFrameRGB_ok := true
  width := 2
  height := 1
  packets := packets
  decoder := 0
  avcodec_decode_video2 := sampleDecode
  sws_scale := fun s => ⟨fun off => (s + off.toNat) % 256, 6⟩
  fopen := fun _ => true

/-- Packets of an interleaved container: on the video stream 1, a packet that
completes a frame, one that does not, and another that completes a frame; in
between, packets of streams 0 and 2. -/
def samplePackets : List AVPacket := [⟨1, 1⟩, ⟨0, 1⟩, ⟨1, 0⟩, ⟨2, 1⟩, ⟨1, 1⟩]

/-- The sample world on a disk that accepts no file. -/
def readOnlyWorld (packets : List AVPacket) : World Nat :=
  { sampleWorld packets with fopen := fun _ => false }

/-- The sample world with the decoder `driftDecode`. -/
def driftWorld (packets : List AVPacket) : World Nat :=
  { sampleWorld packets with avcodec_decode_video2 := driftDecode }

/-- The sample world with a decoder that cannot be opened. -/
def noDecoderWorld (packets : List AVPacket) : World Nat :=
  { sampleWorld packets with avcodec_open2 := -1 }

/-- The sample world with a container that holds audio only. -/
def audioOnlyWorld (packets : List AVPacket) : World Nat :=
  { sampleWorld packets with streams := [⟨1, 86018⟩, ⟨1, 86017⟩] }

/-- A container whose only stream is video and delivers 2147483648 packets,
each of which completes a frame. -/
def longWorld : World Nat :=
  { sampleWorld (List.replicate 2147483648 ⟨0, 1⟩) with streams := [⟨0, 28⟩] }

/-! ## Properties of the text conversions -/

theorem digitChar_toNat (d : Nat) (h : d < 10) : (digitChar d).toNat = 48 + d := by
  interval_cases d <;> rfl

theorem digitChar_eq (d : Nat) (h : d < 10) : digitChar d = Nat.digitChar d := by
  interval_cases d <;> rfl

theorem toDigitsCore_eq (fuel n : Nat) (ds : List Char) :
    Nat.toDigitsCore 10 fuel n ds = decimalFuel fuel n ++ ds := by
  induction fuel generalizing n ds with
  | zero => simp [Nat.toDigitsCore, decimalFuel]
  | succ f ih =>
    unfold Nat.toDigitsCore decimalFuel
    have hmod : n % 10 < 10 := Nat.mod_lt _ (by norm_num)
    by_cases h : n < 10
    · have h0 : n / 10 = 0 := by omega
      have hm : n % 10 = n := by omega
      simp [h, h0, hm, digitChar_eq n h]
    · have h0 : n / 10 ≠ 0 := by omega
      simp [h, h0, ih, digitChar_eq _ hmod]

theorem decimal_eq_toDigits (n : Nat) : decimal n = Nat.toDigits 10 n := by
  unfold decimal Nat.toDigits
  rw [toDigitsCore_eq, List.append_nil]

theorem fmt_d_of_nonneg (z : Int) (h : 0 ≤ z) : fmt_d z = Nat.toDigits 10 z.toNat := by
  unfold fmt_d
  rw [if_neg (by omega), decimal_eq_toDigits]

/-! ## SaveFrame -/

theorem wrap32_of_range (z : Int) (h1 : -2147483648 ≤ z) (h2 : z < 2147483648) :
    wrap32 z = z := by
  unfold wrap32
  omega

theorem size_t_of_int_of_range (n : Int) (h0 : 0 ≤ n) (h1 : n ≤ 2147483647) :
    size_t_of_int n = n.toNat := by
  unfold size_t_of_int
  congr 1
  omega

theorem writeRows_of_range (pFrame : AVFrame) (width : Int) (todo : Nat) (y : Int)
    (hw0 : 0 ≤ width * 3) (hw1 : width * 3 ≤ 2147483647)
    (hoff0 : ∀ j : Nat, j < todo → 0 ≤ (y + (j : Int)) * pFrame.linesize0)
    (hoff1 : ∀ j : Nat, j < todo → (y + (j : Int)) * pFrame.linesize0 ≤ 2147483647) :
    writeRows pFrame width todo y =
      (List.range todo).flatMap
        (fun (j : Nat) => (List.range (width * 3).toNat).map
          (fun (k : Nat) => pFrame.data0 ((y + (j : Int)) * pFrame.linesize0 + (k : Int)))) := by
  induction todo generalizing y with
  | zero => simp [writeRows]
  | succ n ih =>
    have h0 := hoff0 0 (Nat.succ_pos n)
    have h1 := hoff1 0 (Nat.succ_pos n)
    simp only [Nat.cast_zero, add_zero] at h0 h1
    rw [writeRows, ih (y + 1)
      (fun j hj => by have := hoff0 (j + 1) (by omega); push_cast at this; rwa [add_assoc, add_comm 1])
      (fun j hj => by have := hoff1 (j + 1) (by omega); push_cast at this; rwa [add_assoc, add_comm 1]),
      List.range_succ_eq_map, List.flatMap_cons, List.flatMap_map]
    congr 1
    · rw [fwriteBytes, wrap32_of_range _ (by omega) (by omega),
        wrap32_of_range _ (by omega) (by omega), size_t_of_int_of_range _ hw0 hw1]
      simp
    · congr 1
      funext j
      simp only [Function.comp, Nat.succ_eq_add_one, Nat.cast_add, Nat.cast_one]
      congr 1
      funext k
      congr 2
      ring

theorem sourceOffsets_length (linesize width height : Int) :
    (sourceOffsets linesize width height).length = height.toNat * (width * 3).toNat := by
  unfold sourceOffsets
  generalize height.toNat = n
  induction n with
  | zero => simp
  | succ m ih =>
    rw [List.range_succ, List.flatMap_append, List.length_append, ih]
    simp
    ring

/-- C1 on a raster of stride 1073741824, three rows high and one pixel wide:
every condition of the claim holds, but the offset `2 * 1073741824` of the last
row does not fit in an `int`; `SaveFrame` reads that row at offset -2147483648
(bytes 30, 31, 32) and not at offset 2147483648 (bytes 20, 21, 22). -/
theorem last_row_misread_when_offset_wraps :
    (0 : Int) ≤ 1 ∧ (0 : Int) ≤ 3 ∧ (1 : Int) * 3 ≤ wideFrame.linesize0 ∧
    (SaveFrame (fun _ => true) wideFrame 1 3 1).written =
      [80, 54, 10, 49, 32, 51, 10, 50, 53, 53, 10] ++ [0, 0, 0, 0, 0, 0, 30, 31, 32] ∧
    (sourceOffsets wideFrame.linesize0 1 3).map wideFrame.data0 =
      [0, 0, 0, 0, 0, 0, 20, 21, 22] ∧
    (SaveFrame (fun _ => true) wideFrame 1 3 1).written ≠
      [80, 54, 10, 49, 32, 51, 10, 50, 53, 53, 10] ++
        (sourceOffsets wideFrame.linesize0 1 3).map wideFrame.data0 := by
  decide

/-- C1, amended: for a raster whose stride is at most 2147483647 and whose last
row starts at an offset `(height - 1) * linesize` of at most 2147483647, when
the destination can be opened, `SaveFrame` writes the bytes of the header
`P6\n<width> <height>\n255\n` with both numbers in decimal, then for each row
`y` from 0 to `height - 1` the `width * 3` bytes at offset `y * linesize`, and
nothing else; the body has `width * height * 3` bytes and none of them comes
from a padding offset `y * linesize + width * 3 .. (y + 1) * linesize - 1`. -/
theorem SaveFrame_writes_ppm (fopen : List Char → Bool) (pFrame : AVFrame)
    (width height iFrame : Int) (hw : 0 ≤ width) (hh : 0 ≤ height)
    (hls : width * 3 ≤ pFrame.linesize0) (hint : pFrame.linesize0 ≤ 2147483647)
    (hfit : (height - 1) * pFrame.linesize0 ≤ 2147483647)
    (hopen : fopen (frameName iFrame) = true) :
    (SaveFrame fopen pFrame width height iFrame).opened = true ∧
    (SaveFrame fopen pFrame width height iFrame).szFilename = frameName iFrame ∧
    (SaveFrame fopen pFrame width height iFrame).written =
      [80, 54, 10] ++ (Nat.toDigits 10 width.toNat).map Char.toNat ++ [32] ++
        (Nat.toDigits 10 height.toNat).map Char.toNat ++ [10, 50, 53, 53, 10] ++
      (sourceOffsets pFrame.linesize0 width height).map pFrame.data0 ∧
    ((sourceOffsets pFrame.linesize0 width height).map pFrame.data0).length =
      (width * height * 3).toNat ∧
    ∀ off ∈ sourceOffsets pFrame.linesize0 width height, ∀ y : Int,
      ¬ (y * pFrame.linesize0 + width * 3 ≤ off ∧ off < (y + 1) * pFrame.linesize0) := by
  have hls0 : 0 ≤ pFrame.linesize0 := le_trans (by positivity) hls
  have hrows : writeRows pFrame width height.toNat 0 =
      (sourceOffsets pFrame.linesize0 width height).map pFrame.data0 := by
    rw [writeRows_of_range pFrame width height.toNat 0 (by positivity) (by omega)
      (fun j _ => by
        rw [zero_add]
        exact mul_nonneg (Int.natCast_nonneg j) hls0)
      (fun j hj => by
        rw [zero_add]
        have hj' : (j : Int) ≤ height - 1 := by omega
        exact le_trans (mul_le_mul_of_nonneg_right hj' hls0) hfit),
      sourceOffsets, List.map_flatMap]
    congr 1
    funext y
    simp
  refine ⟨?_, ?_, ?_, ?_, ?_⟩
  · simp [SaveFrame, hopen]
  · simp [SaveFrame, hopen]
  · simp only [SaveFrame, hopen, Bool.true_eq_false, if_false, ppmHeader]
    rw [hrows, fmt_d_of_nonneg width hw, fmt_d_of_nonneg height hh]
    simp [asBytes]
  · rw [List.length_map, sourceOffsets_length]
    have h1 : (width * height * 3).toNat = (height.toNat : Int) * ((width * 3).toNat : Int) := by
      rw [Int.toNat_of_nonneg hh, Int.toNat_of_nonneg (by positivity),
        Int.toNat_of_nonneg (by positivity)]
      ring
    exact_mod_cast h1.symm
  · intro off hoff y hy
    simp only [sourceOffsets, List.mem_flatMap, List.mem_map, List.mem_range] at hoff
    obtain ⟨y0, -, k, hk, rfl⟩ := hoff
    have hk3 : (k : Int) < width * 3 := by
      have := Int.toNat_of_nonneg (show 0 ≤ width * 3 by positivity)
      omega
    obtain ⟨h1, h2⟩ := hy
    have hk0 : (0 : Int) ≤ k := Int.natCast_nonneg k
    have hy0 : (0 : Int) ≤ y0 := Int.natCast_nonneg y0
    rcases lt_or_le y (y0 : Int) with hlt | hge
    · have : (y + 1) * pFrame.linesize0 ≤ (y0 : Int) * pFrame.linesize0 :=
        mul_le_mul_of_nonneg_right (by omega) hls0
      omega
    · have : (y0 : Int) * pFrame.linesize0 ≤ y * pFrame.linesize0 :=
        mul_le_mul_of_nonneg_right hge hls0
      omega

/-- C1, amended, at a raster with two bytes of padding per row: 2 by 2 pixels,
stride 8. -/
theorem SaveFrame_writes_ppm_witness :
    (0 : Int) ≤ 2 ∧ (2 : Int) * 3 ≤ sampleFrame.linesize0 ∧
    sampleFrame.linesize0 ≤ 2147483647 ∧ ((2 : Int) - 1) * sampleFrame.linesize0 ≤ 2147483647 ∧
    (SaveFrame (fun _ => true) sampleFrame 2 2 1).szFilename = "frame1.ppm".toList ∧
    (SaveFrame (fun _ => true) sampleFrame 2 2 1).written =
      [80, 54, 10, 50, 32, 50, 10, 50, 53, 53, 10] ++
        [0, 1, 2, 3, 4, 5, 8, 9, 10, 11, 12, 13] :=
  ⟨by decide, by decide, by decide, by decide,
    (SaveFrame_writes_ppm (fun _ => true) sampleFrame 2 2 1 (by decide) (by decide)
      (by decide) (by decide) (by decide) rfl).2.1.trans (by decide),
    (SaveFrame_writes_ppm (fun _ => true) sampleFrame 2 2 1 (by decide) (by decide)
      (by decide) (by decide) (by decide) rfl).2.2.1.trans (by decide)⟩

/-! ## Selection of the video stream -/

theorem findVideoStreamFrom_none (streams : List AVStream) (base : Int)
    (h : ∀ st ∈ streams, st.codec_type ≠ AVMEDIA_TYPE_VIDEO) :
    findVideoStreamFrom streams base = -1 := by
  induction streams generalizing base with
  | nil => rfl
  | cons st rest ih =>
    rw [findVideoStreamFrom, if_neg (h st (List.mem_cons_self _ _))]
    exact ih _ (fun x hx => h x (List.mem_cons_of_mem _ hx))

theorem findVideoStreamFrom_first (streams : List AVStream) (base : Int) (i : Nat)
    (st : AVStream) (hi : streams[i]? = some st) (hv : st.codec_type = AVMEDIA_TYPE_VIDEO)
    (hbefore : ∀ (j : Nat) (sj : AVStream), j < i → streams[j]? = some sj →
      sj.codec_type ≠ AVMEDIA_TYPE_VIDEO) :
    findVideoStreamFrom streams base = base + (i : Int) := by
  induction streams generalizing base i with
  | nil => simp at hi
  | cons s0 rest ih =>
    cases i with
    | zero =>
      simp only [List.getElem?_cons_zero, Option.some.injEq] at hi
      subst hi
      simp [findVideoStreamFrom, hv]
    | succ k =>
      have h0 : s0.codec_type ≠ AVMEDIA_TYPE_VIDEO :=
        hbefore 0 s0 (Nat.succ_pos k) (by simp)
      rw [findVideoStreamFrom, if_neg h0]
      rw [List.getElem?_cons_succ] at hi
      rw [ih (base + 1) k hi (fun j sj hj hsj => hbefore (j + 1) sj (by omega) (by simpa using hsj))]
      push_cast
      ring

/-- `main` returns -1 without a call of `SaveFrame` when no video stream is found. -/
theorem main_of_no_video {σ : Type} (W : World σ) (h : findVideoStream W.streams = -1) :
    (main W).exit = -1 ∧ saveCalls (main W).calls = [] ∧ savedFiles (main W).calls = [] := by
  unfold main
  split_ifs <;>
    simp [saveCalls, savedFiles, callsOpen, callsProbe]

/-- C3: the scan returns the index of the first video stream of the table,
whatever follows it; when the table has no video stream the scan yields -1,
`main` returns a non-zero value and `SaveFrame` is never called. -/
theorem findVideoStream_first {σ : Type} (W : World σ) :
    (∀ (i : Nat) (st : AVStream), W.streams[i]? = some st →
      st.codec_type = AVMEDIA_TYPE_VIDEO →
      (∀ (j : Nat) (sj : AVStream), j < i → W.streams[j]? = some sj →
        sj.codec_type ≠ AVMEDIA_TYPE_VIDEO) →
      findVideoStream W.streams = (i : Int)) ∧
    ((∀ st ∈ W.streams, st.codec_type ≠ AVMEDIA_TYPE_VIDEO) →
      findVideoStream W.streams = -1 ∧ (main W).exit ≠ 0 ∧
      saveCalls (main W).calls = [] ∧ savedFiles (main W).calls = []) := by
  constructor
  · intro i st hi hv hbefore
    have := findVideoStreamFrom_first W.streams 0 i st hi hv hbefore
    simpa [findVideoStream] using this
  · intro h
    have hnone : findVideoStream W.streams = -1 := findVideoStreamFrom_none _ _ h
    obtain ⟨h1, h2, h3⟩ := main_of_no_video W hnone
    exact ⟨hnone, by rw [h1]; decide, h2, h3⟩

/-- C3 on two tables: audio, video, video selects index 1; audio, audio
selects nothing and the run fails without saving. -/
theorem findVideoStream_first_witness :
    findVideoStream (sampleWorld []).streams = 1 ∧
    (findVideoStream (audioOnlyWorld [⟨1, 1⟩]).streams = -1 ∧
      (main (audioOnlyWorld [⟨1, 1⟩])).exit ≠ 0 ∧
      saveCalls (main (audioOnlyWorld [⟨1, 1⟩])).calls = [] ∧
      savedFiles (main (audioOnlyWorld [⟨1, 1⟩])).calls = []) :=
  ⟨(findVideoStream_first (sampleWorld [])).1 1 ⟨0, 28⟩ rfl rfl (by
      intro j sj hj h
      obtain rfl : j = 0 := by omega
      obtain rfl : sj = ⟨1, 86018⟩ := by simpa [sampleWorld] using h.symm
      decide),
    (findVideoStream_first (audioOnlyWorld [⟨1, 1⟩])).2 (by decide)⟩

/-! ## The loop -/

theorem passes_nil {σ : Type} (W : World σ) (vs : Int) (st : σ × Int) :
    passes W vs [] st = (st, []) := rfl

theorem passes_cons {σ : Type} (W : World σ) (vs : Int) (packet : AVPacket)
    (rest : List AVPacket) (st : σ × Int) :
    passes W vs (packet :: rest) st =
      ((passes W vs rest (iteration W vs st packet).1).1,
        (iteration W vs st packet).2 ++ (passes W vs rest (iteration W vs st packet).1).2) := rfl

theorem passes_append {σ : Type} (W : World σ) (vs : Int) (a b : List AVPacket)
    (st : σ × Int) :
    passes W vs (a ++ b) st =
      ((passes W vs b (passes W vs a st).1).1,
        (passes W vs a st).2 ++ (passes W vs b (passes W vs a st).1).2) := by
  induction a generalizing st with
  | nil => simp [passes_nil]
  | cons p rest ih =>
    rw [List.cons_append, passes_cons, passes_cons, ih]
    simp [List.append_assoc]

theorem iteration_other {σ : Type} (W : World σ) (vs : Int) (st : σ × Int)
    (packet : AVPacket) (h : packet.stream_index ≠ vs) :
    iteration W vs st packet =
      (st, [Call.av_read_frame (some packet), Call.av_free_packet packet]) := by
  simp [iteration, h]

theorem iteration_noframe {σ : Type} (W : World σ) (vs : Int) (st : σ × Int)
    (packet : AVPacket) (h : packet.stream_index = vs)
    (hff : (W.avcodec_decode_video2 st.1 packet).frameFinished = 0) :
    iteration W vs st packet =
      (((W.avcodec_decode_video2 st.1 packet).state, st.2),
        [Call.av_read_frame (some packet),
         Call.avcodec_decode_video2 packet (W.avcodec_decode_video2 st.1 packet).ret
           (W.avcodec_decode_video2 st.1 packet).frameFinished,
         Call.av_free_packet packet]) := by
  simp [iteration, h, hff]

theorem iteration_save {σ : Type} (W : World σ) (vs : Int) (st : σ × Int)
    (packet : AVPacket) (h : packet.stream_index = vs)
    (hff : (W.avcodec_decode_video2 st.1 packet).frameFinished ≠ 0)
    (hi : wrap32 (st.2 + 1) ≤ 5) :
    iteration W vs st packet =
      (((W.avcodec_decode_video2 st.1 packet).state, wrap32 (st.2 + 1)),
        [Call.av_read_frame (some packet),
         Call.avcodec_decode_video2 packet (W.avcodec_decode_video2 st.1 packet).ret
           (W.avcodec_decode_video2 st.1 packet).frameFinished,
         Call.sws_scale,
         Call.SaveFrame W.width W.height (wrap32 (st.2 + 1))
           (SaveFrame W.fopen (W.sws_scale (W.avcodec_decode_video2 st.1 packet).state)
             W.width W.height (wrap32 (st.2 + 1))),
         Call.av_free_packet packet]) := by
  simp [iteration, h, hff, hi]

theorem iteration_nosave {σ : Type} (W : World σ) (vs : Int) (st : σ × Int)
    (packet : AVPacket) (h : packet.stream_index = vs)
    (hff : (W.avcodec_decode_video2 st.1 packet).frameFinished ≠ 0)
    (hi : ¬ wrap32 (st.2 + 1) ≤ 5) :
    iteration W vs st packet =
      (((W.avcodec_decode_video2 st.1 packet).state, wrap32 (st.2 + 1)),
        [Call.av_read_frame (some packet),
         Call.avcodec_decode_video2 packet (W.avcodec_decode_video2 st.1 packet).ret
           (W.avcodec_decode_video2 st.1 packet).frameFinished,
         Call.sws_scale,
         Call.av_free_packet packet]) := by
  simp [iteration, h, hff, hi]

theorem decoderFeed_append (a b : List Call) :
    decoderFeed (a ++ b) = decoderFeed a ++ decoderFeed b := by
  simp [decoderFeed, List.filterMap_append]

theorem decoderFeed_iteration {σ : Type} (W : World σ) (vs : Int) (st : σ × Int)
    (packet : AVPacket) :
    decoderFeed (iteration W vs st packet).2 =
      if packet.stream_index = vs then [packet] else [] := by
  by_cases h : packet.stream_index = vs
  · by_cases hff : (W.avcodec_decode_video2 st.1 packet).frameFinished = 0
    · simp [iteration_noframe W vs st packet h hff, decoderFeed, h]
    · by_cases hi : wrap32 (st.2 + 1) ≤ 5
      · simp [iteration_save W vs st packet h hff hi, decoderFeed, h]
      · simp [iteration_nosave W vs st packet h hff hi, decoderFeed, h]
  · simp [iteration_other W vs st packet h, decoderFeed, h]

theorem decoderFeed_passes {σ : Type} (W : World σ) (vs : Int) (packets : List AVPacket)
    (st : σ × Int) :
    decoderFeed (passes W vs packets st).2 =
      packets.filter (fun p => decide (p.stream_index = vs)) := by
  induction packets generalizing st with
  | nil => simp [passes_nil, decoderFeed]
  | cons p rest ih =>
    rw [passes_cons, decoderFeed_append, decoderFeed_iteration, ih]
    by_cases h : p.stream_index = vs <;> simp [h, List.filter_cons]

theorem main_of_setup {σ : Type} (W : World σ) (h : setupSucceeds W) :
    main W = ⟨0, callsFrames W ++ callsBuffer ++
      (readLoop W (findVideoStream W.streams) W.packets (W.decoder, 0)).2 ++ callsTeardown⟩ := by
  obtain ⟨h1, h2, h3, h4, h5, h6, h7, h8⟩ := h
  unfold main
  rw [if_neg (by omega), if_neg (by simp [h2]), if_neg (by omega), if_neg h4,
    if_neg (by simp [h5]), if_neg (by simp [h6]), if_neg (by omega), if_neg (by simp [h8])]

theorem main_exit_zero_iff {σ : Type} (W : World σ) :
    (main W).exit = 0 ↔ setupSucceeds W := by
  constructor
  · intro h
    unfold main at h
    unfold setupSucceeds
    split_ifs at h <;> simp at h
    refine ⟨by omega, by omega, by omega, by assumption, ?_, by omega, by omega, ?_⟩
    · simpa using ‹¬ W.avcodec_find_decoder _ = false›
    · simpa using ‹¬ W.pFrameRGB_ok = false›
  · intro h
    rw [main_of_setup W h]

/-- C4: the packets handed to the decoder by the loop are exactly the packets
read whose stream index equals the selected index, in arrival order; no packet
of another stream reaches the decoder.  In a run of `main` the selected index
is the one found by the scan, and a run that fails before the loop feeds
nothing. -/
theorem decoder_fed_selected_only {σ : Type} (W : World σ) (videoStream : Int)
    (packets : List AVPacket) (st : σ × Int) :
    decoderFeed (readLoop W videoStream packets st).2 =
      packets.filter (fun p => decide (p.stream_index = videoStream)) ∧
    (∀ p ∈ decoderFeed (readLoop W videoStream packets st).2, p.stream_index = videoStream) ∧
    decoderFeed (main W).calls =
      if (main W).exit = 0 then
        W.packets.filter (fun p => decide (p.stream_index = findVideoStream W.streams))
      else [] := by
  have hloop : ∀ (vs : Int) (ps : List AVPacket) (s : σ × Int),
      decoderFeed (readLoop W vs ps s).2 = ps.filter (fun p => decide (p.stream_index = vs)) := by
    intro vs ps s
    unfold readLoop
    rw [decoderFeed_append, decoderFeed_passes]
    simp [decoderFeed]
  refine ⟨hloop _ _ _, ?_, ?_⟩
  · intro p hp
    rw [hloop] at hp
    simpa using (List.mem_filter.mp hp).2
  · by_cases h : setupSucceeds W
    · rw [if_pos ((main_exit_zero_iff W).mpr h), main_of_setup W h]
      simp only [decoderFeed_append, hloop]
      simp [decoderFeed, callsFrames, callsCopy, callsFind, callsProbe, callsOpen, callsBuffer,
        callsTeardown]
    · have hne : (main W).exit ≠ 0 := fun h0 => h ((main_exit_zero_iff W).mp h0)
      rw [if_neg hne]
      unfold main at hne ⊢
      split_ifs at hne ⊢ <;>
        simp [decoderFeed, callsFrames, callsCopy, callsFind, callsProbe, callsOpen] at hne ⊢

/-! ## Packets read and freed, and the other calls of the loop -/

theorem isLoopCall_iteration {σ : Type} (W : World σ) (vs : Int) (st : σ × Int)
    (packet : AVPacket) : ∀ c ∈ (iteration W vs st packet).2, isLoopCall c = true := by
  intro c hc
  by_cases h : packet.stream_index = vs
  · by_cases hff : (W.avcodec_decode_video2 st.1 packet).frameFinished = 0
    · rw [iteration_noframe W vs st packet h hff] at hc
      simp at hc
      rcases hc with rfl | rfl | rfl <;> rfl
    · by_cases hi : wrap32 (st.2 + 1) ≤ 5
      · rw [iteration_save W vs st packet h hff hi] at hc
        simp at hc
        rcases hc with rfl | rfl | rfl | rfl | rfl <;> rfl
      · rw [iteration_nosave W vs st packet h hff hi] at hc
        simp at hc
        rcases hc with rfl | rfl | rfl | rfl <;> rfl
  · rw [iteration_other W vs st packet h] at hc
    simp at hc
    rcases hc with rfl | rfl <;> rfl

theorem isLoopCall_passes {σ : Type} (W : World σ) (vs : Int) (packets : List AVPacket)
    (st : σ × Int) : ∀ c ∈ (passes W vs packets st).2, isLoopCall c = true := by
  induction packets generalizing st with
  | nil => simp [passes_nil]
  | cons p rest ih =>
    intro c hc
    rw [passes_cons] at hc
    rcases List.mem_append.mp hc with h | h
    · exact isLoopCall_iteration W vs st p c h
    · exact ih _ c h

theorem isLoopCall_readLoop {σ : Type} (W : World σ) (vs : Int) (packets : List AVPacket)
    (st : σ × Int) : ∀ c ∈ (readLoop W vs packets st).2, isLoopCall c = true := by
  intro c hc
  unfold readLoop at hc
  rcases List.mem_append.mp hc with h | h
  · exact isLoopCall_passes W vs packets st c h
  · simp at h
    subst h
    rfl

theorem messages_readLoop {σ : Type} (W : World σ) (vs : Int) (packets : List AVPacket)
    (st : σ × Int) : messages (readLoop W vs packets st).2 = [] := by
  unfold messages
  rw [List.filterMap_eq_nil_iff]
  intro c hc
  have := isLoopCall_readLoop W vs packets st c hc
  cases c <;> simp [isLoopCall] at this ⊢

theorem resourceLog_readLoop {σ : Type} (W : World σ) (vs : Int) (packets : List AVPacket)
    (st : σ × Int) : resourceLog (readLoop W vs packets st).2 = [] := by
  unfold resourceLog
  rw [List.filterMap_eq_nil_iff]
  intro c hc
  have := isLoopCall_readLoop W vs packets st c hc
  cases c <;> simp [isLoopCall, resourceEvent] at this ⊢

theorem release_readLoop {σ : Type} (W : World σ) (vs : Int) (packets : List AVPacket)
    (st : σ × Int) : (readLoop W vs packets st).2.filter isRelease = [] := by
  rw [List.filter_eq_nil_iff]
  intro c hc
  have := isLoopCall_readLoop W vs packets st c hc
  cases c <;> simp [isLoopCall, isRelease] at this ⊢

theorem packetsRead_append (a b : List Call) :
    packetsRead (a ++ b) = packetsRead a ++ packetsRead b := by
  simp [packetsRead, List.filterMap_append]

theorem packetsFreed_append (a b : List Call) :
    packetsFreed (a ++ b) = packetsFreed a ++ packetsFreed b := by
  simp [packetsFreed, List.filterMap_append]

theorem packetsRead_iteration {σ : Type} (W : World σ) (vs : Int) (st : σ × Int)
    (packet : AVPacket) :
    packetsRead (iteration W vs st packet).2 = [packet] ∧
    packetsFreed (iteration W vs st packet).2 = [packet] := by
  by_cases h : packet.stream_index = vs
  · by_cases hff : (W.avcodec_decode_video2 st.1 packet).frameFinished = 0
    · simp [iteration_noframe W vs st packet h hff, packetsRead, packetsFreed]
    · by_cases hi : wrap32 (st.2 + 1) ≤ 5
      · simp [iteration_save W vs st packet h hff hi, packetsRead, packetsFreed]
      · simp [iteration_nosave W vs st packet h hff hi, packetsRead, packetsFreed]
  · simp [iteration_other W vs st packet h, packetsRead, packetsFreed]

theorem packetsRead_passes {σ : Type} (W : World σ) (vs : Int) (packets : List AVPacket)
    (st : σ × Int) :
    packetsRead (passes W vs packets st).2 = packets ∧
    packetsFreed (passes W vs packets st).2 = packets := by
  induction packets generalizing st with
  | nil => simp [passes_nil, packetsRead, packetsFreed]
  | cons p rest ih =>
    rw [passes_cons, packetsRead_append, packetsFreed_append,
      (packetsRead_iteration W vs st p).1, (packetsRead_iteration W vs st p).2,
      (ih _).1, (ih _).2]
    simp

theorem packetsRead_main {σ : Type} (W : World σ) (h : setupSucceeds W) :
    packetsRead (main W).calls = W.packets ∧ packetsFreed (main W).calls = W.packets := by
  rw [main_of_setup W h]
  unfold readLoop
  simp only [packetsRead_append, packetsFreed_append,
    (packetsRead_passes W (findVideoStream W.streams) W.packets (W.decoder, 0)).1,
    (packetsRead_passes W (findVideoStream W.streams) W.packets (W.decoder, 0)).2]
  simp [packetsRead, packetsFreed, callsFrames, callsCopy, callsFind, callsProbe, callsOpen,
    callsBuffer, callsTeardown]

theorem messages_main {σ : Type} (W : World σ) (h : setupSucceeds W) :
    messages (main W).calls = [] := by
  rw [main_of_setup W h]
  have hm : ∀ a b : List Call, messages (a ++ b) = messages a ++ messages b := by
    intro a b
    simp [messages, List.filterMap_append]
  simp only [hm, messages_readLoop]
  simp [messages, callsFrames, callsCopy, callsFind, callsProbe, callsOpen, callsBuffer,
    callsTeardown]

/-! ## The counter and the calls of `SaveFrame` -/

theorem saveCalls_append (a b : List Call) :
    saveCalls (a ++ b) = saveCalls a ++ saveCalls b := by
  simp [saveCalls, List.filterMap_append]

theorem sequenceNumbers_of_lt (c : Nat) (h : c < 5) :
    sequenceNumbers c = ((c + 1 : Nat) : Int) :: sequenceNumbers (c + 1) := by
  unfold sequenceNumbers
  have h5 : 5 - c = (5 - (c + 1)) + 1 := by omega
  rw [h5, List.range'_succ]
  simp

theorem sequenceNumbers_of_ge (c : Nat) (h : 5 ≤ c) : sequenceNumbers c = [] := by
  unfold sequenceNumbers
  have h5 : 5 - c = 0 := by omega
  rw [h5]
  simp

/-- While fewer than 2147483648 frames have been counted, the k-th completed
frame is passed to `SaveFrame` under the number k if k is at most 5 and is not
saved otherwise; the counter ends at the number of completed frames. -/
theorem saveCalls_passes {σ : Type} (W : World σ) (vs : Int) (packets : List AVPacket)
    (s : σ) (c : Nat)
    (hc : c + (completions W vs packets s).length < 2147483648) :
    saveCalls (passes W vs packets (s, (c : Int))).2 =
      List.zipWith (saveCallFor W) (sequenceNumbers c) (completions W vs packets s) ∧
    (passes W vs packets (s, (c : Int))).1.2 =
      ((c + (completions W vs packets s).length : Nat) : Int) := by
  induction packets generalizing s c with
  | nil => simp [passes_nil, completions, saveCalls]
  | cons p rest ih =>
    rw [passes_cons, saveCalls_append]
    by_cases h : p.stream_index = vs
    · by_cases hff : (W.avcodec_decode_video2 s p).frameFinished = 0
      · have hcomp : completions W vs (p :: rest) s =
            completions W vs rest (W.avcodec_decode_video2 s p).state := by
          simp [completions, h, hff]
        rw [hcomp] at hc ⊢
        rw [iteration_noframe W vs (s, (c : Int)) p h hff]
        obtain ⟨h1, h2⟩ := ih (W.avcodec_decode_video2 s p).state c hc
        exact ⟨by simpa [saveCalls] using h1, h2⟩
      · have hcomp : completions W vs (p :: rest) s =
            (W.avcodec_decode_video2 s p).state ::
              completions W vs rest (W.avcodec_decode_video2 s p).state := by
          simp [completions, h, hff]
        rw [hcomp] at hc ⊢
        rw [List.length_cons] at hc
        have hw : wrap32 ((c : Int) + 1) = ((c + 1 : Nat) : Int) := by
          rw [wrap32_of_range _ (by omega) (by omega)]
          push_cast
          rfl
        obtain ⟨h1, h2⟩ := ih (W.avcodec_decode_video2 s p).state (c + 1) (by omega)
        by_cases hi : c < 5
        · have hle : wrap32 ((s, (c : Int)).2 + 1) ≤ 5 := by
            show wrap32 ((c : Int) + 1) ≤ 5
            rw [hw]
            exact_mod_cast hi
          rw [iteration_save W vs (s, (c : Int)) p h hff hle]
          simp only [hw]
          rw [sequenceNumbers_of_lt c hi, List.zipWith_cons_cons, ← h1, h2]
          refine ⟨?_, ?_⟩
          · simp [saveCalls, saveCallFor]
          · simp only [List.length_cons]
            push_cast
            ring
        · have hgt : ¬ wrap32 ((s, (c : Int)).2 + 1) ≤ 5 := by
            show ¬ wrap32 ((c : Int) + 1) ≤ 5
            rw [hw]
            push_cast
            omega
          rw [iteration_nosave W vs (s, (c : Int)) p h hff hgt]
          simp only [hw]
          rw [sequenceNumbers_of_ge c (by omega), List.zipWith_nil_left, h2]
          rw [sequenceNumbers_of_ge (c + 1) (by omega), List.zipWith_nil_left] at h1
          refine ⟨?_, ?_⟩
          · rw [h1]
            simp [saveCalls]
          · simp only [List.length_cons]
            push_cast
            ring
    · have hcomp : completions W vs (p :: rest) s = completions W vs rest s := by
        simp [completions, h]
      rw [hcomp] at hc ⊢
      rw [iteration_other W vs (s, (c : Int)) p h]
      obtain ⟨h1, h2⟩ := ih s c hc
      exact ⟨by simpa [saveCalls] using h1, h2⟩

theorem iFrame_zipWith_saveCallFor {σ : Type} (W : World σ) (ks : List Int) (ss : List σ) :
    (List.zipWith (saveCallFor W) ks ss).map SaveCall.iFrame = ks.take ss.length := by
  induction ks generalizing ss with
  | nil => simp
  | cons k rest ih =>
    cases ss with
    | nil => simp
    | cons s0 ss0 => simp [ih, saveCallFor]

theorem completions_replicate {σ : Type} (W : World σ) (vs : Int) (p : AVPacket)
    (hp : p.stream_index = vs)
    (hff : ∀ s, (W.avcodec_decode_video2 s p).frameFinished ≠ 0) (k : Nat) (s : σ) :
    (completions W vs (List.replicate k p) s).length = k := by
  induction k generalizing s with
  | zero => simp [completions]
  | succ n ih =>
    rw [List.replicate_succ]
    simp only [completions, hp, if_true, hff s, ne_eq, not_false_eq_true, List.length_cons]
    rw [ih]

theorem setupSucceeds_longWorld : setupSucceeds longWorld :=
  ⟨by decide, rfl, by decide, by decide, rfl, rfl, by decide, rfl⟩

theorem saveCalls_main {σ : Type} (W : World σ) (h : setupSucceeds W) :
    saveCalls (main W).calls =
      saveCalls (passes W (findVideoStream W.streams) W.packets (W.decoder, 0)).2 := by
  rw [main_of_setup W h]
  unfold readLoop
  simp only [saveCalls_append]
  simp [saveCalls, callsFrames, callsCopy, callsFind, callsProbe, callsOpen, callsBuffer,
    callsTeardown]

theorem sequenceNumbers_zero : sequenceNumbers 0 = [1, 2, 3, 4, 5] := by decide

/-- When 2147483647 frames have been completed, the next completed frame is
passed to `SaveFrame` under the number -2147483648. -/
theorem saveIndices_at_wrap {σ : Type} (W : World σ) (vs : Int) (ps : List AVPacket)
    (p : AVPacket) (s : σ) (hn : (completions W vs ps s).length = 2147483647)
    (hp : p.stream_index = vs)
    (hff : ∀ s', (W.avcodec_decode_video2 s' p).frameFinished ≠ 0) :
    (saveCalls (passes W vs (ps ++ [p]) (s, 0)).2).map SaveCall.iFrame =
      [1, 2, 3, 4, 5, -2147483648] := by
  obtain ⟨h1, h2⟩ := saveCalls_passes W vs ps s 0 (by rw [hn]; norm_num)
  rw [Nat.cast_zero] at h1 h2
  rw [passes_append, passes_cons, passes_nil]
  generalize passes W vs ps (s, 0) = q at h1 h2 ⊢
  obtain ⟨⟨s1, i1⟩, calls⟩ := q
  simp only at h1 h2 ⊢
  have hi1 : i1 = 2147483647 := by omega
  subst hi1
  have hw : wrap32 (2147483647 + 1) = -2147483648 := by decide
  rw [iteration_save W vs (s1, 2147483647) p hp (hff s1) (by show wrap32 (2147483647 + 1) ≤ 5; rw [hw]; decide)]
  simp only [saveCalls_append, List.map_append, h1, iFrame_zipWith_saveCallFor, hw]
  rw [List.take_of_length_le (by rw [hn, sequenceNumbers_zero]; simp), sequenceNumbers_zero]
  simp [saveCalls]

/-- C5 on a stream of 2147483648 frames: every packet is read and released, but
after the five saves the counter keeps counting, leaves the range of `int` at
the 2147483648th frame, and `SaveFrame` is called a sixth time, with sequence
number -2147483648. -/
theorem SaveFrame_called_again_after_wrap :
    saveIndices (main longWorld).calls = [1, 2, 3, 4, 5, -2147483648] ∧
    packetsRead (main longWorld).calls = longWorld.packets ∧
    packetsFreed (main longWorld).calls = longWorld.packets := by
  refine ⟨?_, packetsRead_main longWorld setupSucceeds_longWorld⟩
  have hfin : ∀ s, (longWorld.avcodec_decode_video2 s ⟨0, 1⟩).frameFinished ≠ 0 := by
    intro s
    show (sampleDecode s ⟨0, 1⟩).frameFinished ≠ 0
    simp [sampleDecode]
  have hvs : findVideoStream longWorld.streams = 0 := by decide
  have hpk : longWorld.packets = List.replicate 2147483647 ⟨0, 1⟩ ++ [⟨0, 1⟩] := by
    show List.replicate (2147483647 + 1) (⟨0, 1⟩ : AVPacket) = _
    exact List.replicate_succ' _ _
  have hdec : longWorld.decoder = 0 := rfl
  rw [saveIndices, saveCalls_main longWorld setupSucceeds_longWorld, hvs, hpk, hdec]
  exact saveIndices_at_wrap longWorld 0 _ ⟨0, 1⟩ 0
    (completions_replicate longWorld 0 ⟨0, 1⟩ rfl hfin 2147483647 0) rfl hfin

/-! ## The files of a run -/

theorem setupSucceeds_sampleWorld (ps : List AVPacket) : setupSucceeds (sampleWorld ps) :=
  ⟨show (2 : Int) ≤ 2 by decide, rfl, show (0 : Int) ≤ 0 by decide,
    show findVideoStream [⟨1, 86018⟩, ⟨0, 28⟩, ⟨0, 13⟩] ≠ -1 by decide, rfl, rfl,
    show (0 : Int) ≤ 0 by decide, rfl⟩

theorem savedFiles_zipWith {σ : Type} (W : World σ) (ks : List Int) (ss : List σ)
    (hopen : ∀ k ∈ ks, W.fopen (frameName k) = true) :
    (List.zipWith (saveCallFor W) ks ss).filterMap
        (fun c => if c.op.opened then some (c.op.szFilename, c.op.written) else none) =
      List.zipWith (fun k s => (frameName k,
        asBytes (ppmHeader W.width W.height) ++
          writeRows (W.sws_scale s) W.width W.height.toNat 0)) ks ss := by
  induction ks generalizing ss with
  | nil => simp
  | cons k rest ih =>
    cases ss with
    | nil => simp
    | cons s0 ss0 =>
      have hk : W.fopen (frameName k) = true := hopen k (List.mem_cons_self _ _)
      rw [List.zipWith_cons_cons, List.zipWith_cons_cons, List.filterMap_cons,
        ih ss0 (fun x hx => hopen x (List.mem_cons_of_mem _ hx))]
      simp [saveCallFor, SaveFrame, hk]

theorem names_of_first_five (n : Nat) :
    (List.take n ([1, 2, 3, 4, 5] : List Int)).map frameName =
      (List.range (min n 5)).map
        (fun k => "frame".toList ++ Nat.toDigits 10 (k + 1) ++ ".ppm".toList) := by
  match n with
  | 0 => decide
  | 1 => decide
  | 2 => decide
  | 3 => decide
  | 4 => decide
  | m + 5 =>
    have h5 : min (m + 5) 5 = 5 := by omega
    rw [h5, List.take_of_length_le (by simp)]
    decide

/-- C2 with a disk that accepts no file: one frame is completed, the run ends
with exit code 0, and no file is produced. -/
theorem no_file_when_fopen_fails :
    (completions (readOnlyWorld [⟨1, 1⟩]) (findVideoStream (readOnlyWorld [⟨1, 1⟩]).streams)
      (readOnlyWorld [⟨1, 1⟩]).packets (readOnlyWorld [⟨1, 1⟩]).decoder).length = 1 ∧
    (main (readOnlyWorld [⟨1, 1⟩])).exit = 0 ∧
    savedFiles (main (readOnlyWorld [⟨1, 1⟩])).calls = [] ∧
    (savedFiles (main (readOnlyWorld [⟨1, 1⟩])).calls).length ≠
      min (completions (readOnlyWorld [⟨1, 1⟩])
        (findVideoStream (readOnlyWorld [⟨1, 1⟩]).streams)
        (readOnlyWorld [⟨1, 1⟩]).packets (readOnlyWorld [⟨1, 1⟩]).decoder).length 5 := by
  decide

/-- C2, amended: when every step before the loop succeeds, the files
`frame1.ppm` to `frame5.ppm` can be opened and the decoder completes n frames
with n below 2147483648, the run produces exactly min(n, 5) files, named
`frame1.ppm`, `frame2.ppm`, ... in the order the frames were completed, the
k-th holding the header for the stream's width and height and the rows of the
k-th completed frame, and `main` returns 0. -/
theorem files_are_first_five {σ : Type} (W : World σ) (hsetup : setupSucceeds W)
    (hopen : ∀ k ∈ ([1, 2, 3, 4, 5] : List Int), W.fopen (frameName k) = true)
    (hn : (completions W (findVideoStream W.streams) W.packets W.decoder).length <
      2147483648) :
    (main W).exit = 0 ∧
    savedFiles (main W).calls =
      List.zipWith (fun k s => (frameName k,
        asBytes (ppmHeader W.width W.height) ++
          writeRows (W.sws_scale s) W.width W.height.toNat 0))
        [1, 2, 3, 4, 5] (completions W (findVideoStream W.streams) W.packets W.decoder) ∧
    (savedFiles (main W).calls).length =
      min (completions W (findVideoStream W.streams) W.packets W.decoder).length 5 ∧
    (savedFiles (main W).calls).map Prod.fst =
      (List.range
        (min (completions W (findVideoStream W.streams) W.packets W.decoder).length 5)).map
        (fun k => "frame".toList ++ Nat.toDigits 10 (k + 1) ++ ".ppm".toList) := by
  obtain ⟨h1, -⟩ := saveCalls_passes W (findVideoStream W.streams) W.packets W.decoder 0
    (by omega)
  rw [Nat.cast_zero, sequenceNumbers_zero] at h1
  have hfiles : savedFiles (main W).calls =
      List.zipWith (fun k s => (frameName k,
        asBytes (ppmHeader W.width W.height) ++
          writeRows (W.sws_scale s) W.width W.height.toNat 0))
        [1, 2, 3, 4, 5] (completions W (findVideoStream W.streams) W.packets W.decoder) := by
    rw [savedFiles, saveCalls_main W hsetup, h1, savedFiles_zipWith W _ _ hopen]
  refine ⟨(main_exit_zero_iff W).mpr hsetup, hfiles, ?_, ?_⟩
  · rw [hfiles, List.length_zipWith]
    simp [min_comm]
  · rw [hfiles, ← names_of_first_five]
    generalize completions W (findVideoStream W.streams) W.packets W.decoder = ss
    generalize ([1, 2, 3, 4, 5] : List Int) = ks
    induction ks generalizing ss with
    | nil => simp
    | cons k rest ih =>
      cases ss with
      | nil => simp
      | cons s0 ss0 => simp [ih]

/-- C2, amended, on the interleaved sample: two frames are completed and the
run produces `frame1.ppm` and `frame2.ppm`. -/
theorem files_are_first_five_witness :
    setupSucceeds (sampleWorld samplePackets) ∧
    (main (sampleWorld samplePackets)).exit = 0 ∧
    (savedFiles (main (sampleWorld samplePackets)).calls).map Prod.fst =
      ["frame1.ppm".toList, "frame2.ppm".toList] :=
  ⟨setupSucceeds_sampleWorld _,
    (files_are_first_five (sampleWorld samplePackets) (setupSucceeds_sampleWorld _)
      (fun _ _ => rfl) (by decide)).1,
    (files_are_first_five (sampleWorld samplePackets) (setupSucceeds_sampleWorld _)
      (fun _ _ => rfl) (by decide)).2.2.2.trans (by decide)⟩

/-! ## Decode errors -/

theorem iteration_withPackets {σ : Type} (W : World σ) (ps : List AVPacket) (vs : Int)
    (st : σ × Int) (packet : AVPacket) :
    iteration (withPackets W ps) vs st packet = iteration W vs st packet := rfl

theorem passes_withPackets {σ : Type} (W : World σ) (ps : List AVPacket) (vs : Int)
    (packets : List AVPacket) (st : σ × Int) :
    passes (withPackets W ps) vs packets st = passes W vs packets st := by
  induction packets generalizing st with
  | nil => rfl
  | cons p rest ih => rw [passes_cons, passes_cons, iteration_withPackets, ih]

theorem setupSucceeds_withPackets {σ : Type} (W : World σ) (ps : List AVPacket)
    (h : setupSucceeds W) : setupSucceeds (withPackets W ps) := h

theorem completions_append {σ : Type} (W : World σ) (vs : Int) (a b : List AVPacket)
    (s : σ) (c : Int) :
    completions W vs (a ++ b) s =
      completions W vs a s ++ completions W vs b (passes W vs a (s, c)).1.1 := by
  induction a generalizing s c with
  | nil => simp [completions, passes_nil]
  | cons p rest ih =>
    rw [List.cons_append, passes_cons]
    by_cases h : p.stream_index = vs
    · by_cases hff : (W.avcodec_decode_video2 s p).frameFinished = 0
      · rw [iteration_noframe W vs (s, c) p h hff]
        simp only [completions, h, if_true, hff, ne_eq, not_true_eq_false, if_false]
        exact ih _ _
      · by_cases hi : wrap32 ((s, c).2 + 1) ≤ 5
        · rw [iteration_save W vs (s, c) p h hff hi]
          simp only [completions, h, if_true, hff, ne_eq, not_false_eq_true,
            List.cons_append]
          rw [ih]
        · rw [iteration_nosave W vs (s, c) p h hff hi]
          simp only [completions, h, if_true, hff, ne_eq, not_false_eq_true,
            List.cons_append]
          rw [ih]
    · rw [iteration_other W vs (s, c) p h]
      simp only [completions, h, if_false]
      exact ih _ _

/-- The sequence numbers of the saves depend on the counter and on the number
of frames completed, and on nothing else. -/
theorem saveIndices_passes {σ : Type} (W : World σ) (vs : Int) (packets : List AVPacket)
    (s : σ) (c : Int) :
    saveIndices (passes W vs packets (s, c)).2 =
      indicesFrom c (completions W vs packets s).length := by
  induction packets generalizing s c with
  | nil => simp [passes_nil, completions, saveIndices, saveCalls, indicesFrom]
  | cons p rest ih =>
    rw [passes_cons]
    unfold saveIndices at ih ⊢
    rw [saveCalls_append, List.map_append]
    by_cases h : p.stream_index = vs
    · by_cases hff : (W.avcodec_decode_video2 s p).frameFinished = 0
      · rw [iteration_noframe W vs (s, c) p h hff, ih]
        simp [completions, h, hff, saveCalls]
      · by_cases hi : wrap32 (c + 1) ≤ 5
        · rw [iteration_save W vs (s, c) p h hff hi, ih]
          simp [completions, h, hff, saveCalls, indicesFrom, hi]
        · rw [iteration_nosave W vs (s, c) p h hff hi, ih]
          simp [completions, h, hff, saveCalls, indicesFrom, hi]
    · rw [iteration_other W vs (s, c) p h, ih]
      simp [completions, h, saveCalls]

/-- C6 on two decoders.  With a decoder that reports an error on a packet and
still hands back a frame, the frame of the erroring packet is saved as
`frame1.ppm` and the frame of the packet after it is saved under the number 2,
not under the number 1 it has when the erroring packet is absent.  With a
decoder that rejects a packet without a frame but completes a frame on every
second packet it has taken in, the three packets after the rejected one yield
one saved frame, where they yield two when the rejected packet is absent. -/
theorem erroring_packet_is_saved :
    ((sampleDecode 0 ⟨1, 3⟩).ret < 0 ∧
      (savedFiles (main (sampleWorld [⟨1, 3⟩])).calls).map Prod.fst = ["frame1.ppm".toList] ∧
      (main (sampleWorld [⟨1, 3⟩, ⟨1, 1⟩])).exit = 0 ∧
      saveIndices (main (sampleWorld [⟨1, 3⟩, ⟨1, 1⟩])).calls = [1, 2] ∧
      saveIndices (main (sampleWorld [⟨1, 1⟩])).calls = [1]) ∧
    ((driftDecode 0 ⟨1, 4⟩).ret < 0 ∧ (driftDecode 0 ⟨1, 4⟩).frameFinished = 0 ∧
      saveIndices (main (driftWorld [⟨1, 4⟩, ⟨1, 1⟩, ⟨1, 1⟩, ⟨1, 1⟩])).calls = [1] ∧
      saveIndices (main (driftWorld [⟨1, 1⟩, ⟨1, 1⟩, ⟨1, 1⟩])).calls = [1, 2]) := by
  decide

/-- C6, amended: when the decoder reports an error on a packet of the selected
stream and sets `frameFinished` to zero for it, the run does not abort (`main`
returns 0 and every packet is read and released); the pass of that packet
consists of the read, the decode call and the release of the packet, without a
call of `SaveFrame`, and leaves the counter as it was; the frames completed are
those completed by the other packets, and, below 2147483648 frames, they are
saved under the numbers 1, 2, ... of their order of completion; the sequence
numbers are those of the run without the erroring packet whenever the packets
after it complete as many frames without it, and the calls of `SaveFrame`, file
contents included, are the same whenever the erroring call leaves the decoder
in the state it had. -/
theorem decode_error_is_skipped {σ : Type} (W : World σ) (hsetup : setupSucceeds W)
    (pre post : List AVPacket) (p : AVPacket)
    (hp : p.stream_index = findVideoStream W.streams)
    (herr : (W.avcodec_decode_video2
      (passes W (findVideoStream W.streams) pre (W.decoder, 0)).1.1 p).ret < 0)
    (hff : (W.avcodec_decode_video2
      (passes W (findVideoStream W.streams) pre (W.decoder, 0)).1.1 p).frameFinished = 0) :
    (main (withPackets W (pre ++ p :: post))).exit = 0 ∧
    packetsRead (main (withPackets W (pre ++ p :: post))).calls = pre ++ p :: post ∧
    packetsFreed (main (withPackets W (pre ++ p :: post))).calls = pre ++ p :: post ∧
    (∃ ret : Int, ret < 0 ∧
      (passes W (findVideoStream W.streams) (pre ++ p :: post) (W.decoder, 0)).2 =
        (passes W (findVideoStream W.streams) pre (W.decoder, 0)).2 ++
        [Call.av_read_frame (some p), Call.avcodec_decode_video2 p ret 0,
          Call.av_free_packet p] ++
        (passes W (findVideoStream W.streams) post
          ((W.avcodec_decode_video2
              (passes W (findVideoStream W.streams) pre (W.decoder, 0)).1.1 p).state,
            (passes W (findVideoStream W.streams) pre (W.decoder, 0)).1.2)).2) ∧
    completions W (findVideoStream W.streams) (pre ++ p :: post) W.decoder =
      completions W (findVideoStream W.streams) pre W.decoder ++
      completions W (findVideoStream W.streams) post
        (W.avcodec_decode_video2
          (passes W (findVideoStream W.streams) pre (W.decoder, 0)).1.1 p).state ∧
    ((completions W (findVideoStream W.streams) (pre ++ p :: post) W.decoder).length <
        2147483648 →
      saveIndices (main (withPackets W (pre ++ p :: post))).calls =
        List.take (completions W (findVideoStream W.streams) (pre ++ p :: post)
          W.decoder).length [1, 2, 3, 4, 5]) ∧
    ((completions W (findVideoStream W.streams) post
          (W.avcodec_decode_video2
            (passes W (findVideoStream W.streams) pre (W.decoder, 0)).1.1 p).state).length =
        (completions W (findVideoStream W.streams) post
          (passes W (findVideoStream W.streams) pre (W.decoder, 0)).1.1).length →
      saveIndices (main (withPackets W (pre ++ p :: post))).calls =
        saveIndices (main (withPackets W (pre ++ post))).calls) ∧
    ((W.avcodec_decode_video2
          (passes W (findVideoStream W.streams) pre (W.decoder, 0)).1.1 p).state =
        (passes W (findVideoStream W.streams) pre (W.decoder, 0)).1.1 →
      saveCalls (main (withPackets W (pre ++ p :: post))).calls =
        saveCalls (main (withPackets W (pre ++ post))).calls) := by
  have hset : ∀ ps, setupSucceeds (withPackets W ps) :=
    fun ps => setupSucceeds_withPackets W ps hsetup
  have hpass : (passes W (findVideoStream W.streams) (pre ++ p :: post) (W.decoder, 0)) =
      ((passes W (findVideoStream W.streams) post
          ((W.avcodec_decode_video2
              (passes W (findVideoStream W.streams) pre (W.decoder, 0)).1.1 p).state,
            (passes W (findVideoStream W.streams) pre (W.decoder, 0)).1.2)).1,
        (passes W (findVideoStream W.streams) pre (W.decoder, 0)).2 ++
        [Call.av_read_frame (some p),
          Call.avcodec_decode_video2 p (W.avcodec_decode_video2
            (passes W (findVideoStream W.streams) pre (W.decoder, 0)).1.1 p).ret 0,
          Call.av_free_packet p] ++
        (passes W (findVideoStream W.streams) post
          ((W.avcodec_decode_video2
              (passes W (findVideoStream W.streams) pre (W.decoder, 0)).1.1 p).state,
            (passes W (findVideoStream W.streams) pre (W.decoder, 0)).1.2)).2) := by
    rw [passes_append, passes_cons, iteration_noframe W _ _ p hp hff, hff]
    simp [List.append_assoc]
  have hcomp : completions W (findVideoStream W.streams) (pre ++ p :: post) W.decoder =
      completions W (findVideoStream W.streams) pre W.decoder ++
      completions W (findVideoStream W.streams) post
        (W.avcodec_decode_video2
          (passes W (findVideoStream W.streams) pre (W.decoder, 0)).1.1 p).state := by
    rw [completions_append W _ pre (p :: post) W.decoder 0]
    congr 1
    simp [completions, hp, hff]
  have hmain : ∀ ps, saveCalls (main (withPackets W ps)).calls =
      saveCalls (passes W (findVideoStream W.streams) ps (W.decoder, 0)).2 := by
    intro ps
    rw [saveCalls_main _ (hset ps)]
    show saveCalls (passes (withPackets W ps) (findVideoStream W.streams) ps (W.decoder, 0)).2 = _
    rw [passes_withPackets]
  have hidx : ∀ ps, saveIndices (main (withPackets W ps)).calls =
      indicesFrom 0 (completions W (findVideoStream W.streams) ps W.decoder).length := by
    intro ps
    rw [saveIndices, hmain ps]
    exact saveIndices_passes W _ ps W.decoder 0
  refine ⟨(main_exit_zero_iff _).mpr (hset _), (packetsRead_main _ (hset _)).1,
    (packetsRead_main _ (hset _)).2, ⟨_, herr, by rw [hpass]⟩, hcomp, ?_, ?_, ?_⟩
  · intro hn
    obtain ⟨h1, -⟩ := saveCalls_passes W (findVideoStream W.streams) (pre ++ p :: post)
      W.decoder 0 (by omega)
    rw [Nat.cast_zero, sequenceNumbers_zero] at h1
    rw [saveIndices, hmain, h1, iFrame_zipWith_saveCallFor]
  · intro hlen
    rw [hidx, hidx, hcomp, completions_append W _ pre post W.decoder 0,
      List.length_append, List.length_append, hlen]
  · intro hstate
    rw [hmain, hmain, hpass, passes_append, hstate]
    simp [saveCalls_append, saveCalls]

/-- C6, amended, on a sample: the second packet of the video stream is rejected
with an error and counted by the decoder; the frames of the packets around it
are saved under the numbers 1 and 2, as without it. -/
theorem decode_error_is_skipped_witness :
    (sampleDecode 1 ⟨1, 4⟩).ret < 0 ∧ (sampleDecode 1 ⟨1, 4⟩).frameFinished = 0 ∧
    (main (withPackets (sampleWorld []) ([⟨1, 1⟩] ++ ⟨1, 4⟩ :: [⟨1, 1⟩]))).exit = 0 ∧
    saveIndices (main (withPackets (sampleWorld []) ([⟨1, 1⟩] ++ ⟨1, 4⟩ :: [⟨1, 1⟩]))).calls =
      [1, 2] ∧
    saveIndices (main (withPackets (sampleWorld []) ([⟨1, 1⟩] ++ ⟨1, 4⟩ :: [⟨1, 1⟩]))).calls =
      saveIndices (main (withPackets (sampleWorld []) ([⟨1, 1⟩] ++ [⟨1, 1⟩]))).calls :=
  ⟨by decide, by decide,
    (decode_error_is_skipped (sampleWorld []) (setupSucceeds_sampleWorld _) [⟨1, 1⟩] [⟨1, 1⟩]
      ⟨1, 4⟩ (by decide) (by decide) (by decide)).1,
    ((decode_error_is_skipped (sampleWorld []) (setupSucceeds_sampleWorld _) [⟨1, 1⟩] [⟨1, 1⟩]
      ⟨1, 4⟩ (by decide) (by decide) (by decide)).2.2.2.2.2.1 (by decide)).trans (by decide),
    (decode_error_is_skipped (sampleWorld []) (setupSucceeds_sampleWorld _) [⟨1, 1⟩] [⟨1, 1⟩]
      ⟨1, 4⟩ (by decide) (by decide) (by decide)).2.2.2.2.2.2.1 (by decide)⟩

/-! ## A destination that cannot be opened -/

theorem saveCalls_iteration_form {σ : Type} (W : World σ) (vs : Int) (st : σ × Int)
    (packet : AVPacket) :
    ∀ c ∈ saveCalls (iteration W vs st packet).2, ∃ s, c = saveCallFor W c.iFrame s := by
  intro c hc
  by_cases h : packet.stream_index = vs
  · by_cases hff : (W.avcodec_decode_video2 st.1 packet).frameFinished = 0
    · simp [iteration_noframe W vs st packet h hff, saveCalls] at hc
    · by_cases hi : wrap32 (st.2 + 1) ≤ 5
      · simp [iteration_save W vs st packet h hff hi, saveCalls] at hc
        subst hc
        exact ⟨_, rfl⟩
      · simp [iteration_nosave W vs st packet h hff hi, saveCalls] at hc
  · simp [iteration_other W vs st packet h, saveCalls] at hc

theorem saveCalls_passes_form {σ : Type} (W : World σ) (vs : Int) (packets : List AVPacket)
    (st : σ × Int) :
    ∀ c ∈ saveCalls (passes W vs packets st).2, ∃ s, c = saveCallFor W c.iFrame s := by
  induction packets generalizing st with
  | nil => simp [passes_nil, saveCalls]
  | cons p rest ih =>
    intro c hc
    rw [passes_cons, saveCalls_append] at hc
    rcases List.mem_append.mp hc with h | h
    · exact saveCalls_iteration_form W vs st p c h
    · exact ih _ c h

theorem setupSucceeds_readOnlyWorld (ps : List AVPacket) : setupSucceeds (readOnlyWorld ps) :=
  setupSucceeds_sampleWorld ps

/-- C7 on a disk that accepts no file: the call of `SaveFrame` for the first
frame opens nothing and writes nothing, and the run prints no message and
returns 0, exactly as on a disk where the file is written. -/
theorem failed_save_is_not_reported :
    saveCalls (main (readOnlyWorld [⟨1, 1⟩])).calls =
      [⟨2, 1, 1, ⟨"frame1.ppm".toList, false, []⟩⟩] ∧
    messages (main (readOnlyWorld [⟨1, 1⟩])).calls = [] ∧
    (main (readOnlyWorld [⟨1, 1⟩])).exit = 0 ∧
    messages (main (sampleWorld [⟨1, 1⟩])).calls = [] ∧
    (main (sampleWorld [⟨1, 1⟩])).exit = 0 := by
  decide

/-- C7, amended: when `SaveFrame` cannot open its destination file it returns
without a report (the run prints no message and `main` still returns 0), no
byte is written for that frame, the save is not attempted again (the pass makes
the one call of `SaveFrame` and goes on to release the packet), and the loop
continues: every packet is read and released. -/
theorem failed_save_is_silent {σ : Type} (W : World σ) (hsetup : setupSucceeds W) :
    (main W).exit = 0 ∧
    messages (main W).calls = [] ∧
    packetsRead (main W).calls = W.packets ∧
    packetsFreed (main W).calls = W.packets ∧
    (∀ c ∈ saveCalls (main W).calls, W.fopen (frameName c.iFrame) = false →
      c.op = ⟨frameName c.iFrame, false, []⟩) ∧
    (∀ (vs : Int) (st : σ × Int) (p : AVPacket), p.stream_index = vs →
      (W.avcodec_decode_video2 st.1 p).frameFinished ≠ 0 →
      wrap32 (st.2 + 1) ≤ 5 →
      W.fopen (frameName (wrap32 (st.2 + 1))) = false →
      (iteration W vs st p).2 =
        [Call.av_read_frame (some p),
         Call.avcodec_decode_video2 p (W.avcodec_decode_video2 st.1 p).ret
           (W.avcodec_decode_video2 st.1 p).frameFinished,
         Call.sws_scale,
         Call.SaveFrame W.width W.height (wrap32 (st.2 + 1))
           ⟨frameName (wrap32 (st.2 + 1)), false, []⟩,
         Call.av_free_packet p]) := by
  refine ⟨(main_exit_zero_iff W).mpr hsetup, messages_main W hsetup,
    (packetsRead_main W hsetup).1, (packetsRead_main W hsetup).2, ?_, ?_⟩
  · intro c hc hfail
    rw [saveCalls_main W hsetup] at hc
    obtain ⟨s, hs⟩ := saveCalls_passes_form W _ _ _ c hc
    rw [hs]
    simp [saveCallFor, SaveFrame, hfail]
  · intro vs st p hp hff hi hfail
    rw [iteration_save W vs st p hp hff hi]
    simp [SaveFrame, hfail]

/-- C7, amended, on a disk that accepts no file: the run returns 0, prints
nothing, reads its packet, and its call of `SaveFrame` writes nothing. -/
theorem failed_save_is_silent_witness :
    setupSucceeds (readOnlyWorld [⟨1, 1⟩]) ∧
    (main (readOnlyWorld [⟨1, 1⟩])).exit = 0 ∧
    messages (main (readOnlyWorld [⟨1, 1⟩])).calls = [] ∧
    packetsRead (main (readOnlyWorld [⟨1, 1⟩])).calls = [⟨1, 1⟩] :=
  ⟨setupSucceeds_readOnlyWorld _,
    (failed_save_is_silent (readOnlyWorld [⟨1, 1⟩]) (setupSucceeds_readOnlyWorld _)).1,
    (failed_save_is_silent (readOnlyWorld [⟨1, 1⟩]) (setupSucceeds_readOnlyWorld _)).2.1,
    (failed_save_is_silent (readOnlyWorld [⟨1, 1⟩]) (setupSucceeds_readOnlyWorld _)).2.2.1⟩

/-! ## Acquisition and release -/

theorem resourceLog_of_setup {σ : Type} (W : World σ) (hsetup : setupSucceeds W) :
    resourceLog (main W).calls =
      [ResourceEvent.acquire Resource.container, ResourceEvent.acquire Resource.decoder,
       ResourceEvent.acquire Resource.rasterBuffer, ResourceEvent.release Resource.rasterBuffer,
       ResourceEvent.release Resource.decoder, ResourceEvent.release Resource.container] := by
  have h2 : W.avformat_open_input = 0 := hsetup.2.1
  have h7 : ¬ W.avcodec_open2 < 0 := not_lt.mpr hsetup.2.2.2.2.2.2.1
  have happ : ∀ a b : List Call, resourceLog (a ++ b) = resourceLog a ++ resourceLog b := by
    intro a b
    simp [resourceLog, List.filterMap_append]
  rw [main_of_setup W hsetup]
  simp only [happ, resourceLog_readLoop]
  simp [resourceLog, resourceEvent, callsFrames, callsCopy, callsFind, callsProbe, callsOpen,
    callsBuffer, callsTeardown, h2, h7]

/-- C8 with a decoder that cannot be opened: `main` returns -1, the container
has been acquired, and no release call is made; the container is not closed. -/
theorem container_left_open_on_abort :
    (main (noDecoderWorld [⟨1, 1⟩])).exit = -1 ∧
    resourceLog (main (noDecoderWorld [⟨1, 1⟩])).calls =
      [ResourceEvent.acquire Resource.container] ∧
    (main (noDecoderWorld [⟨1, 1⟩])).calls.filter isRelease = [] := by
  decide

theorem main_abort {σ : Type} (W : World σ) (h : ¬ setupSucceeds W) :
    (main W).exit = -1 ∧ (main W).calls.filter isRelease = [] ∧
    (∀ r, ResourceEvent.release r ∉ resourceLog (main W).calls) ∧
    (2 ≤ W.argc → W.avformat_open_input = 0 →
      (resourceLog (main W).calls).head? = some (ResourceEvent.acquire Resource.container)) := by
  unfold main
  split_ifs with c1 c2 c3 c4 c5 c6 c7 c8
  · refine ⟨rfl, by simp [isRelease], by simp [resourceLog, resourceEvent], ?_⟩
    intro h2
    omega
  · refine ⟨rfl, by simp [isRelease, callsOpen], ?_, ?_⟩
    · simp [resourceLog, resourceEvent, callsOpen]
    · intro _ h0
      exact absurd h0 c2
  · refine ⟨rfl, by simp [isRelease, callsOpen], ?_, ?_⟩
    · simp [resourceLog, resourceEvent, callsOpen]
    · intro _ h0
      simp [resourceLog, resourceEvent, callsOpen, h0]
  · refine ⟨rfl, by simp [isRelease, callsOpen, callsProbe], ?_, ?_⟩
    · simp [resourceLog, resourceEvent, callsOpen, callsProbe]
    · intro _ h0
      simp [resourceLog, resourceEvent, callsOpen, callsProbe, h0]
  · refine ⟨rfl, by simp [isRelease, callsOpen, callsProbe, callsFind], ?_, ?_⟩
    · simp [resourceLog, resourceEvent, callsOpen, callsProbe, callsFind]
    · intro _ h0
      simp [resourceLog, resourceEvent, callsOpen, callsProbe, callsFind, h0]
  · refine ⟨rfl, by simp [isRelease, callsOpen, callsProbe, callsFind, callsCopy], ?_, ?_⟩
    · simp [resourceLog, resourceEvent, callsOpen, callsProbe, callsFind, callsCopy]
    · intro _ h0
      simp [resourceLog, resourceEvent, callsOpen, callsProbe, callsFind, callsCopy, h0]
  · refine ⟨rfl, by simp [isRelease, callsOpen, callsProbe, callsFind, callsCopy], ?_, ?_⟩
    · simp [resourceLog, resourceEvent, callsOpen, callsProbe, callsFind, callsCopy, c7]
    · intro _ h0
      simp [resourceLog, resourceEvent, callsOpen, callsProbe, callsFind, callsCopy, h0]
  · refine ⟨rfl, by simp [isRelease, callsOpen, callsProbe, callsFind, callsCopy, callsFrames],
      ?_, ?_⟩
    · simp [resourceLog, resourceEvent, callsOpen, callsProbe, callsFind, callsCopy,
        callsFrames]
    · intro _ h0
      simp [resourceLog, resourceEvent, callsOpen, callsProbe, callsFind, callsCopy,
        callsFrames, h0]
  · exfalso
    apply h
    refine ⟨by omega, by omega, by omega, c4, ?_, by omega, by omega, ?_⟩
    · simpa using c5
    · simpa using c8

/-- C8, amended: once the container has been opened, it is the first resource
of the run; on every early abort (stream probe failure, no video stream,
unsupported codec, codec-context copy failure, decoder-open failure, RGB frame
allocation failure) `main` returns -1 without any release call, so the
container stays open; only the normal path, which returns 0, runs the release
calls, from `av_free(buffer)` to `avformat_close_input`. -/
theorem early_abort_releases_nothing {σ : Type} (W : World σ) (hargc : 2 ≤ W.argc)
    (hopen : W.avformat_open_input = 0) :
    (resourceLog (main W).calls).head? = some (ResourceEvent.acquire Resource.container) ∧
    ((main W).exit ≠ 0 →
      (main W).exit = -1 ∧ (main W).calls.filter isRelease = [] ∧
      ∀ r, ResourceEvent.release r ∉ resourceLog (main W).calls) ∧
    ((main W).exit = 0 → (main W).calls.filter isRelease = callsTeardown) := by
  by_cases h : setupSucceeds W
  · have h0 : (main W).exit = 0 := (main_exit_zero_iff W).mpr h
    refine ⟨?_, fun hne => absurd h0 hne, fun _ => ?_⟩
    · rw [resourceLog_of_setup W h]
      rfl
    · rw [main_of_setup W h]
      simp only [List.filter_append, release_readLoop]
      simp [isRelease, callsFrames, callsCopy, callsFind, callsProbe, callsOpen, callsBuffer,
        callsTeardown]
  · have hne : (main W).exit ≠ 0 := fun h0 => h ((main_exit_zero_iff W).mp h0)
    obtain ⟨h1, h2, h3, h4⟩ := main_abort W h
    exact ⟨h4 hargc hopen, fun _ => ⟨h1, h2, h3⟩, fun h0 => absurd h0 hne⟩

/-- C8, amended, on the sample with a decoder that cannot be opened. -/
theorem early_abort_releases_nothing_witness :
    (2 : Int) ≤ (noDecoderWorld [⟨1, 1⟩]).argc ∧
    (noDecoderWorld [⟨1, 1⟩]).avformat_open_input = 0 ∧
    (main (noDecoderWorld [⟨1, 1⟩])).exit = -1 ∧
    (main (noDecoderWorld [⟨1, 1⟩])).calls.filter isRelease = [] :=
  ⟨by decide, rfl,
    ((early_abort_releases_nothing (noDecoderWorld [⟨1, 1⟩]) (by decide) rfl).2.1
      (by decide)).1,
    ((early_abort_releases_nothing (noDecoderWorld [⟨1, 1⟩]) (by decide) rfl).2.1
      (by decide)).2.1⟩

/-- C9: when every step before the loop succeeds, the container, the decoder
and the converted-raster buffer are acquired in this order and released in the
reverse order, each once, and `main` returns 0. -/
theorem release_reverses_acquisition {σ : Type} (W : World σ) (hsetup : setupSucceeds W) :
    (main W).exit = 0 ∧
    resourceLog (main W).calls =
      [ResourceEvent.acquire Resource.container, ResourceEvent.acquire Resource.decoder,
       ResourceEvent.acquire Resource.rasterBuffer, ResourceEvent.release Resource.rasterBuffer,
       ResourceEvent.release Resource.decoder, ResourceEvent.release Resource.container] := by
  exact ⟨(main_exit_zero_iff W).mpr hsetup, resourceLog_of_setup W hsetup⟩

/-- C9 on the interleaved sample. -/
theorem release_reverses_acquisition_witness :
    setupSucceeds (sampleWorld samplePackets) ∧
    (main (sampleWorld samplePackets)).exit = 0 ∧
    resourceLog (main (sampleWorld samplePackets)).calls =
      [ResourceEvent.acquire Resource.container, ResourceEvent.acquire Resource.decoder,
       ResourceEvent.acquire Resource.rasterBuffer, ResourceEvent.release Resource.rasterBuffer,
       ResourceEvent.release Resource.decoder, ResourceEvent.release Resource.container] :=
  ⟨setupSucceeds_sampleWorld _,
    release_reverses_acquisition (sampleWorld samplePackets) (setupSucceeds_sampleWorld _)⟩

/-! ## The file name -/

theorem decimalFuel_length_le (fuel n e : Nat) (he : 0 < e) (hn : n < 10 ^ e) :
    (decimalFuel fuel n).length ≤ e := by
  induction fuel generalizing n e with
  | zero => simp [decimalFuel]
  | succ f ih =>
    unfold decimalFuel
    split
    · simpa using he
    · rename_i h10
      obtain ⟨e', rfl⟩ : ∃ e', e = e' + 1 := ⟨e - 1, by omega⟩
      have he' : 0 < e' := by
        rcases Nat.eq_zero_or_pos e' with h0 | h0
        · subst h0
          simp at hn
          omega
        · exact h0
      have hdiv : n / 10 < 10 ^ e' := by
        rw [Nat.div_lt_iff_lt_mul (by norm_num)]
        rw [pow_succ] at hn
        exact hn
      have := ih (n / 10) e' he' hdiv
      simp only [List.length_append, List.length_singleton]
      omega

theorem decimalValue_append_singleton (l : List Char) (c : Char) :
    decimalValue (l ++ [c]) = 10 * decimalValue l + (c.toNat - 48) := by
  simp [decimalValue, List.foldl_append]

theorem decimalValue_decimalFuel (fuel n : Nat) (hn : n < 10 ^ fuel) :
    decimalValue (decimalFuel fuel n) = n := by
  induction fuel generalizing n with
  | zero =>
    simp at hn
    subst hn
    rfl
  | succ f ih =>
    unfold decimalFuel
    split
    · rename_i h10
      simp [decimalValue, digitChar_toNat n h10]
    · have hdiv : n / 10 < 10 ^ f := by
        rw [Nat.div_lt_iff_lt_mul (by norm_num)]
        rw [pow_succ] at hn
        exact hn
      rw [decimalValue_append_singleton, ih _ hdiv,
        digitChar_toNat _ (Nat.mod_lt _ (by norm_num))]
      omega

theorem decimalValue_decimal (n : Nat) : decimalValue (decimal n) = n := by
  unfold decimal
  apply decimalValue_decimalFuel
  calc n < 10 ^ n := Nat.lt_pow_self (by norm_num) n
    _ ≤ 10 ^ (n + 1) := Nat.pow_le_pow_right (by norm_num) (Nat.le_succ n)

theorem digitChar_ne_minus (d : Nat) (h : d < 10) : digitChar d ≠ '-' := by
  interval_cases d <;> decide

theorem decimalFuel_no_minus (fuel n : Nat) : ∀ c ∈ decimalFuel fuel n, c ≠ '-' := by
  induction fuel generalizing n with
  | zero => simp [decimalFuel]
  | succ f ih =>
    unfold decimalFuel
    split
    · rename_i h10
      intro c hc
      simp at hc
      subst hc
      exact digitChar_ne_minus n h10
    · intro c hc
      rcases List.mem_append.mp hc with h | h
      · exact ih _ c h
      · simp at h
        subst h
        exact digitChar_ne_minus _ (Nat.mod_lt _ (by norm_num))

theorem decimal_ne_nil (n : Nat) : decimal n ≠ [] := by
  unfold decimal decimalFuel
  split <;> simp

theorem read_d_fmt_d (z : Int) : read_d (fmt_d z) = z := by
  unfold fmt_d
  split
  · rename_i hneg
    simp only [read_d, if_true, decimalValue_decimal]
    omega
  · rename_i hpos
    have hne := decimal_ne_nil z.toNat
    have hno := decimalFuel_no_minus (z.toNat + 1) z.toNat
    have hval := decimalValue_decimal z.toNat
    unfold decimal at hne hval ⊢
    revert hne hno hval
    generalize decimalFuel (z.toNat + 1) z.toNat = l
    intro hne hno hval
    cases l with
    | nil => exact absurd rfl hne
    | cons c rest =>
      have hc : c ≠ '-' := hno c (List.mem_cons_self _ _)
      simp only [read_d, if_neg hc, hval]
      omega

theorem fmt_d_injective (a b : Int) (h : fmt_d a = fmt_d b) : a = b := by
  rw [← read_d_fmt_d a, ← read_d_fmt_d b, h]

theorem fmt_d_length (z : Int) (h1 : -2147483648 ≤ z) (h2 : z ≤ 2147483647) :
    (fmt_d z).length ≤ 11 := by
  unfold fmt_d decimal
  split
  · have := decimalFuel_length_le ((-z).toNat + 1) (-z).toNat 10 (by norm_num)
      (by norm_num; omega)
    simp only [List.length_cons]
    omega
  · have := decimalFuel_length_le (z.toNat + 1) z.toNat 10 (by norm_num) (by norm_num; omega)
    omega

/-- C10: for every 32-bit signed sequence number the name `frame<iFrame>.ppm`
has at most 20 characters, so it fits with its terminating NUL in the 32 bytes
of `szFilename`; and different sequence numbers give different names. -/
theorem frameName_fits_and_is_injective (iFrame : Int) (h1 : -2147483648 ≤ iFrame)
    (h2 : iFrame ≤ 2147483647) :
    (frameName iFrame).length ≤ 20 ∧ (frameName iFrame).length + 1 ≤ 32 ∧
    ∀ j : Int, frameName iFrame = frameName j → iFrame = j := by
  have hlen : (frameName iFrame).length = 5 + (fmt_d iFrame).length + 4 := by
    rw [frameName, List.length_append, List.length_append]
    rfl
  have := fmt_d_length iFrame h1 h2
  refine ⟨by omega, by omega, ?_⟩
  intro j hj
  unfold frameName at hj
  exact fmt_d_injective _ _ (List.append_cancel_left (List.append_cancel_right hj))

/-- C10 at the smallest `int`: the name has exactly 20 characters. -/
theorem frameName_fits_and_is_injective_witness :
    frameName (-2147483648) = "frame-2147483648.ppm".toList ∧
    (frameName (-2147483648)).length ≤ 20 ∧ (frameName (-2147483648)).length + 1 ≤ 32 ∧
    ∀ j : Int, frameName (-2147483648) = frameName j → -2147483648 = j :=
  ⟨by decide, frameName_fits_and_is_injective (-2147483648) (by decide) (by decide)⟩

end Video2pic
